import Mathlib

/-!
# arcgis feature-server client: validation and response decoding

A shallow embedding of `featureserver/validation.go`, `featureserver/info.go`,
`featureserver/query.go` and `featureserver/edits.go`, followed by theorems about
the record-shape validator and the response decoders.

Conventions of the embedding:

* `reflect.Type` values are terms of `GoType`.  A type descriptor carries what the
  validator reads through reflection: its kind, its printed form, and for struct
  types the declared fields with the value of their `json` tag.
* A Go `error` built with `fmt.Errorf` is its message; a run-time panic of a
  reflection call is a separate outcome.
* Functions of libraries outside the repository (`encoding/json`,
  `mapstructure`) are parameters of the decoders, collected in `Codec`; a
  reference instance `goCodec` describes their behaviour on JSON values.
-/

namespace Arcgis

/-! ## Reflection model -/

/-- The kinds of `reflect.Kind`. -/
inductive Kind where
  | invalid | bool | int | int8 | int16 | int32 | int64
  | uint | uint8 | uint16 | uint32 | uint64 | uintptr
  | float32 | float64 | complex64 | complex128
  | array | chan | func | interface | map | ptr | slice
  | string | struct | unsafePointer
deriving DecidableEq, Repr

/-- The text `reflect.Kind.String` prints. -/
def Kind.name : Kind → String
  | .invalid => "invalid" | .bool => "bool" | .int => "int" | .int8 => "int8"
  | .int16 => "int16" | .int32 => "int32" | .int64 => "int64"
  | .uint => "uint" | .uint8 => "uint8" | .uint16 => "uint16" | .uint32 => "uint32"
  | .uint64 => "uint64" | .uintptr => "uintptr"
  | .float32 => "float32" | .float64 => "float64"
  | .complex64 => "complex64" | .complex128 => "complex128"
  | .array => "array" | .chan => "chan" | .func => "func" | .interface => "interface"
  | .map => "map" | .ptr => "ptr" | .slice => "slice"
  | .string => "string" | .struct => "struct" | .unsafePointer => "unsafe.Pointer"

/-- The predeclared boolean, numeric and string types of Go. -/
inductive Basic where
  | bool | int | int8 | int16 | int32 | int64
  | uint | uint8 | uint16 | uint32 | uint64 | uintptr
  | float32 | float64 | complex64 | complex128 | string
deriving DecidableEq, Repr

/-- The kind of a predeclared type. -/
def Basic.kind : Basic → Kind
  | .bool => .bool | .int => .int | .int8 => .int8 | .int16 => .int16
  | .int32 => .int32 | .int64 => .int64
  | .uint => .uint | .uint8 => .uint8 | .uint16 => .uint16 | .uint32 => .uint32
  | .uint64 => .uint64 | .uintptr => .uintptr
  | .float32 => .float32 | .float64 => .float64
  | .complex64 => .complex64 | .complex128 => .complex128 | .string => .string

/-- The name of a predeclared type, which is also its printed form. -/
def Basic.name (b : Basic) : String := b.kind.name

mutual
/-- A Go type as `reflect` describes it.

* `basic b`: a predeclared type;
* `pointer t`: the pointer type `*t`;
* `struct str fs`: a struct type, defined (`str` is `pkg.Name`) or literal, with
  its fields in declaration order;
* `other k str`: any other type (a defined type over a non-struct underlying
  type, a slice, map, array, channel, function or interface type, or a type
  whose structure is not described further), by kind and printed form.

Two descriptors denote the same Go type when they are equal. -/
inductive GoType where
  | basic (b : Basic)
  | pointer (elem : GoType)
  | struct (str : String) (fields : Fields)
  | other (kind : Kind) (str : String)
deriving DecidableEq
/-- The fields of a struct type: Go name, value of `Tag.Get("json")`, type. -/
inductive Fields where
  | nil
  | cons (Name jsonTag : String) (Typ : GoType) (rest : Fields)
deriving DecidableEq
end

/-- A `reflect.StructField`, reduced to the members the validator reads:
`Name`, `Tag.Get("json")` and `Type`. -/
structure StructField where
  Name : String
  jsonTag : String
  Typ : GoType
deriving DecidableEq

/-- The fields of a struct as a list. -/
def Fields.toList : Fields → List StructField
  | .nil => []
  | .cons n t ty rest => ⟨n, t, ty⟩ :: rest.toList

/-- Build the field sequence of a struct type from a list. -/
def Fields.ofList : List StructField → Fields
  | [] => .nil
  | f :: rest => .cons f.Name f.jsonTag f.Typ (Fields.ofList rest)

/-- The method `reflect.Type.Kind`. -/
def GoType.kind : GoType → Kind
  | .basic b => b.kind
  | .pointer _ => .ptr
  | .struct _ _ => .struct
  | .other k _ => k

/-- The method `reflect.Type.String`. -/
def GoType.string : GoType → String
  | .basic b => b.name
  | .pointer t => "*" ++ t.string
  | .struct s _ => s
  | .other _ s => s

/-- The fields `Field(0)`, ..., `Field(NumField()-1)` of a type of kind struct. -/
def GoType.fields : GoType → List StructField
  | .struct _ fs => fs.toList
  | _ => []

/-- The method `reflect.Type.FieldByName`, for a type of kind struct, on the
direct fields: the first field of that name.  (A name that is absent from the
direct fields would be searched among the fields promoted from embedded structs;
the validator only passes names it has read from the direct fields.) -/
def GoType.FieldByName (t : GoType) (name : String) : Option StructField :=
  if name = "" then none else t.fields.find? (fun f => f.Name == name)

/-- A struct type with the given printed form and fields. -/
def GoType.mkStruct (str : String) (fs : List StructField) : GoType :=
  .struct str (Fields.ofList fs)

/-! ## Strings and maps -/

/-- The expression `strings.Split(s, ",")[0]`: the text before the first comma. -/
def splitFirst (s : String) : String :=
  String.mk (s.data.takeWhile (fun c => c != ','))

/-- The wire key of a struct member: the first segment of its `json` tag. -/
def StructField.wireKey (f : StructField) : String := splitFirst f.jsonTag

/-- A Go `map[string]string`, most recent assignment first. -/
abbrev GoMap := List (String × String)

/-- The assignment `m[k] = v`. -/
def GoMap.set (m : GoMap) (k v : String) : GoMap := (k, v) :: m

/-- The two-valued lookup `v, ok := m[k]`. -/
def GoMap.get? (m : GoMap) (k : String) : Option String := List.lookup k m

/-- The one-valued lookup `m[k]`, which is `""` for an absent key. -/
def GoMap.index (m : GoMap) (k : String) : String := (m.get? k).getD ""

/-! ## Data model (`geometry.go`, `field.go`, `info.go`, `date.go`) -/

def GeometryTypeNone : String := ""
def GeometryTypePoint : String := "esriGeometryPoint"
def GeometryTypeMultiPoint : String := "esriGeometryMultipoint"

def FieldTypeOID : String := "esriFieldTypeOID"
def FieldTypeSmallInt : String := "esriFieldTypeSmallInteger"
def FieldTypeInt : String := "esriFieldTypeInteger"
def FieldTypeFloat : String := "esriFieldTypeFloat"
def FieldTypeDouble : String := "esriFieldTypeDouble"
def FieldTypeString : String := "esriFieldTypeString"
def FieldTypeDate : String := "esriFieldTypeDate"

def LayerTypeFeatureLayer : String := "Feature Layer"
def LayerTypeTable : String := "Table"

/-- A JSON number as Go holds it after decoding (a `float64`), written as the
decimal numeral `mant * 10 ^ exp10`.  The code performs no arithmetic on these
values; it stores them and hands them to library conversions. -/
structure Number where
  mant : Int
  exp10 : Int
deriving DecidableEq, Repr

/-- The descriptor of `type GeometryMultiPoint struct { Points [][]float64 }`. -/
def GeometryMultiPointT : GoType :=
  .mkStruct "featureserver.GeometryMultiPoint"
    [⟨"Points", "points", .other .slice "[][]float64"⟩]

/-- The descriptor of `type GeometryPoint struct { X, Y float64 }`. -/
def GeometryPointT : GoType :=
  .mkStruct "featureserver.GeometryPoint"
    [⟨"X", "x", .basic .float64⟩, ⟨"Y", "y", .basic .float64⟩]

/-- The descriptor of `time.Time` (standard library): three unexported fields. -/
def timeTimeT : GoType :=
  .mkStruct "time.Time"
    [⟨"wall", "", .basic .uint64⟩, ⟨"ext", "", .basic .int64⟩,
     ⟨"loc", "", .pointer (.other .struct "time.Location")⟩]

/-- The descriptor of `type Date struct { *time.Time }` of package `arcgis`. -/
def DateT : GoType :=
  .mkStruct "arcgis.Date" [⟨"Time", "", .pointer timeTimeT⟩]

/-- The struct `FieldInfo` of `info.go`. -/
structure FieldInfo where
  Name : String
  Typ : String
  Alias : String
  Nullable : Bool
deriving DecidableEq, Repr

/-- The struct `FeatureLayerInfo` of `info.go`. -/
structure FeatureLayerInfo where
  ID : Nat
  CurrentVersion : Number
  Name : String
  Typ : String
  GeometryType : String
  Fields : List FieldInfo
deriving DecidableEq, Repr

/-- The struct `TableInfo` of `info.go`. -/
structure TableInfo where
  ID : Nat
  CurrentVersion : Number
  Name : String
  Typ : String
  Fields : List FieldInfo
deriving DecidableEq, Repr

/-- A value of `type Info = interface{}`: one of the two metadata structs, the
nil interface, or a value of some other dynamic type (given by what `%T`
prints for it). -/
inductive Info where
  | featureLayer (i : FeatureLayerInfo)
  | table (i : TableInfo)
  | nil
  | other (typeName : String)
deriving DecidableEq, Repr

/-- What `%T` prints for an `Info` value. -/
def Info.typeName : Info → String
  | .featureLayer _ => "featureserver.FeatureLayerInfo"
  | .table _ => "featureserver.TableInfo"
  | .nil => "<nil>"
  | .other n => n

/-! ## `ValidateFeature` (`validation.go`) -/

/-- How a call of `ValidateFeature` ends. -/
inductive Outcome where
  /-- The call returns `nil`. -/
  | ok
  /-- The call returns `fmt.Errorf` of the message. -/
  | err (msg : String)
  /-- The call does not return: a reflection operation panics. -/
  | panic (msg : String)
deriving DecidableEq, Repr

/-- The loop of lines 20-27 and of lines 86-93: for each field in order, take
the first segment of the `json` tag, fail when it is empty, and record
`structFieldNames[jsonTag] = f.Name`. -/
def collectJsonTags : List StructField → GoMap → Except Outcome GoMap
  | [], structFieldNames => .ok structFieldNames
  | f :: rest, structFieldNames =>
    let jsonTag := splitFirst f.jsonTag
    if jsonTag = "" then
      .error (.err ("missing json tag for '" ++ f.Name ++ "'"))
    else
      collectJsonTags rest (structFieldNames.set jsonTag f.Name)

/-- The switch of lines 64-80 on the expected geometry type. -/
def checkGeometryType (expectGeometryType geometryType : String) : Except Outcome Unit :=
  if expectGeometryType = GeometryTypeNone then
    if geometryType ≠ "featureserver.GeometryNone" then
      .error (.err "geometry type is none but geometry is not")
    else .ok ()
  else if expectGeometryType = GeometryTypePoint then
    if geometryType ≠ "featureserver.GeometryPoint" then
      .error (.err "geometry type is point but geometry is not")
    else .ok ()
  else if expectGeometryType = GeometryTypeMultiPoint then
    if geometryType ≠ "featureserver.GeometryMultiPoint" then
      .error (.err ("invalid geometry, expected '" ++ expectGeometryType ++
        "' but got '" ++ geometryType ++ "'"))
    else .ok ()
  else
    .error (.err ("unhandled geometry type: " ++ geometryType))

/-- The switch of lines 108-125: the Go value whose type a schema field type
expects, `none` for the `default` branch. -/
def expectType (fieldType : String) : Option GoType :=
  if fieldType = FieldTypeOID then some (.basic .int32)
  else if fieldType = FieldTypeSmallInt then some (.basic .int16)
  else if fieldType = FieldTypeInt then some (.basic .int32)
  else if fieldType = FieldTypeFloat then some (.basic .float32)
  else if fieldType = FieldTypeDouble then some (.basic .float64)
  else if fieldType = FieldTypeString then some (.basic .string)
  else if fieldType = FieldTypeDate then some DateT
  else none

/-- Lines 127-130: `reflect.TypeOf(expectType)`, made a pointer type for a
nullable field. -/
def expectReflectType (expect : GoType) (nullable : Bool) : GoType :=
  if nullable then .pointer expect else expect

/-- The body of the loop of lines 95-135 for one schema field; `.ok` stands for
reaching the next iteration (by `continue` or at the end of the body). -/
def validateField (attributes : GoType) (structFieldNames : GoMap) (field : FieldInfo) :
    Outcome :=
  match structFieldNames.get? field.Name with
  | none => .ok
  | some structFieldName =>
    match attributes.FieldByName structFieldName with
    | none => .err ("missing field '" ++ field.Name ++ "'")
    | some f =>
      match expectType field.Typ with
      | none => .err ("unhandled field type: " ++ field.Typ)
      | some expect =>
        if f.Typ ≠ expectReflectType expect field.Nullable then
          .err ("field '" ++ field.Name ++ "' has type '" ++ f.Typ.string ++
            "' but expected type '" ++ (expectReflectType expect field.Nullable).string ++ "'")
        else .ok

/-- The loop of lines 95-135 over the schema fields: the first field whose check
does not pass ends the call. -/
def validateFields (attributes : GoType) (structFieldNames : GoMap) :
    List FieldInfo → Outcome
  | [] => .ok
  | field :: rest =>
    match validateField attributes structFieldNames field with
    | .ok => validateFields attributes structFieldNames rest
    | o => o

/-- Lines 11-43: the feature must be a struct whose members all carry a wire
key; the members keyed `attributes` and `geometry` are looked up.  `feature` is
`reflect.TypeOf(feature)`, `none` for a nil interface, on which `Kind` panics. -/
def resolveContainers (feature : Option GoType) : Except Outcome (StructField × StructField) :=
  match feature with
  | none => .error (.panic "invalid memory address or nil pointer dereference")
  | some fType =>
    if fType.kind ≠ Kind.struct then .error (.err "feature must be a struct") else
    match collectJsonTags fType.fields [] with
    | .error e => .error e
    | .ok structFieldNames =>
      if structFieldNames.index "attributes" = "" then
        .error (.err "missing attributes field") else
      match fType.FieldByName (structFieldNames.index "attributes") with
      | none => .error (.err "missing attributes field")
      | some attributes =>
        if structFieldNames.index "geometry" = "" then
          .error (.err "missing geometry field") else
        match fType.FieldByName (structFieldNames.index "geometry") with
        | none => .error (.err "missing geometry field")
        | some geometry => .ok (attributes, geometry)

/-- Lines 45-56: the schema fields and the expected geometry type of the layer
info. -/
def schemaOf (info : Info) : Except Outcome (List FieldInfo × String) :=
  match info with
  | .featureLayer i => .ok (i.Fields, i.GeometryType)
  | .table i => .ok (i.Fields, GeometryTypeNone)
  | other => .error (.err ("unhandled info type: " ++ other.typeName))

/-- Lines 60-80: the geometry member must be of kind struct and its printed
type must be the one the expected geometry type asks for. -/
def checkGeometry (expectGeometryType : String) (geometry : GoType) : Except Outcome Unit :=
  if geometry.kind ≠ Kind.struct then
    .error (.err ("geometry must be a struct but is " ++ geometry.kind.name))
  else checkGeometryType expectGeometryType geometry.string

/-- Lines 84-93: the map from the wire keys of the attributes members to their
Go names; `NumField` panics on a type that is not of kind struct. -/
def attributeNames (attributes : GoType) : Except Outcome GoMap :=
  if attributes.kind ≠ Kind.struct then
    .error (.panic ("reflect: NumField of non-struct type " ++ attributes.string))
  else collectJsonTags attributes.fields []

/-- Lines 11-93 of `ValidateFeature`: the checks on the record shape's two
containers and on the geometry member.  A passing run yields the type of the
attributes member, the map from its wire keys to Go names, and the schema
fields. -/
def containerChecks (feature : Option GoType) (info : Info) :
    Except Outcome (GoType × GoMap × List FieldInfo) := do
  let (attributes, geometry) ← resolveContainers feature
  let (fields, expectGeometryType) ← schemaOf info
  checkGeometry expectGeometryType geometry.Typ
  let structFieldNames ← attributeNames attributes.Typ
  return (attributes.Typ, structFieldNames, fields)

/-- The function `ValidateFeature` on the type of the caller's feature value. -/
def ValidateFeature (feature : Option GoType) (info : Info) : Outcome :=
  match containerChecks feature info with
  | .error o => o
  | .ok (attributes, structFieldNames, fields) =>
    validateFields attributes structFieldNames fields

/-! ### The record shapes and the schema of the examples -/

/-- The schema of the end-to-end scenario: a point layer with `objectid` and a
nullable `rotation`. -/
def wildfireInfo : FeatureLayerInfo :=
  { ID := 0, CurrentVersion := ⟨1091, -2⟩, Name := "Wildfire Response Points",
    Typ := LayerTypeFeatureLayer, GeometryType := GeometryTypePoint,
    Fields := [⟨"objectid", FieldTypeOID, "OBJECTID", false⟩,
               ⟨"rotation", FieldTypeSmallInt, "Rotation", true⟩] }

/-- The attributes struct `UpdateFeatureAttributes` of `examples/applyEdits`. -/
def UpdateFeatureAttributesT : GoType :=
  .mkStruct "main.UpdateFeatureAttributes"
    [⟨"ObjectID", "objectid", .basic .int32⟩,
     ⟨"Rotation", "rotation", .pointer (.basic .int16)⟩]

/-- The record shape `UpdateFeature` of `examples/applyEdits`. -/
def UpdateFeatureT : GoType :=
  .mkStruct "main.UpdateFeature"
    [⟨"Attributes", "attributes", UpdateFeatureAttributesT⟩,
     ⟨"Geometry", "geometry", GeometryPointT⟩]

/-- The record shape `NewFeature` of `examples/applyEdits`: only `rotation`. -/
def NewFeatureT : GoType :=
  .mkStruct "main.NewFeature"
    [⟨"Attributes", "attributes",
        .mkStruct "main.NewFeatureAttributes"
          [⟨"Rotation", "rotation", .pointer (.basic .int16)⟩]⟩,
     ⟨"Geometry", "geometry", GeometryPointT⟩]

/-- The record shape `UpdateFeature` with a multipoint geometry member. -/
def MultiPointFeatureT : GoType :=
  .mkStruct "main.MultiPointFeature"
    [⟨"Attributes", "attributes", UpdateFeatureAttributesT⟩,
     ⟨"Geometry", "geometry", GeometryMultiPointT⟩]

/-- The schema of the scenario with a field of a type outside the table. -/
def globalIdInfo : FeatureLayerInfo :=
  { wildfireInfo with
    Fields := wildfireInfo.Fields ++ [⟨"globalid", "esriFieldTypeGlobalID", "GlobalID", false⟩] }

/-- A table schema with the fields of the scenario. -/
def wildfireTable : TableInfo :=
  { ID := 3, CurrentVersion := ⟨1091, -2⟩, Name := "Wildfire Response Table",
    Typ := LayerTypeTable, Fields := wildfireInfo.Fields }

/-- The schema of the scenario for a multipoint layer. -/
def multiPointInfo : FeatureLayerInfo :=
  { wildfireInfo with GeometryType := GeometryTypeMultiPoint }

/-- The struct `FeatureAttributes` of `examples/query`: a flat attributes
struct without `attributes` or `geometry` member. -/
def FeatureAttributesT : GoType :=
  .mkStruct "main.FeatureAttributes"
    [⟨"ObjectID", "objectid", .basic .int32⟩,
     ⟨"Rotation", "rotation", .pointer (.basic .int16)⟩,
     ⟨"Description", "description", .pointer (.basic .string)⟩,
     ⟨"EventDate", "eventdate", .pointer DateT⟩,
     ⟨"EventType", "eventtype", .pointer (.basic .int32)⟩,
     ⟨"CreatedUser", "created_user", .pointer (.basic .string)⟩,
     ⟨"CreatedDate", "created_date", .pointer DateT⟩,
     ⟨"LastEditedUser", "last_edited_user", .pointer (.basic .string)⟩,
     ⟨"LastEditedDate", "last_edited_date", .pointer DateT⟩]

/-- A layer info whose fields match the members of `FeatureAttributes`. -/
def queryExampleInfo : FeatureLayerInfo :=
  { wildfireInfo with
    Fields := [⟨"objectid", FieldTypeOID, "OBJECTID", false⟩,
               ⟨"rotation", FieldTypeSmallInt, "Rotation", true⟩,
               ⟨"description", FieldTypeString, "Description", true⟩,
               ⟨"eventdate", FieldTypeDate, "Date", true⟩,
               ⟨"eventtype", FieldTypeInt, "Type", true⟩,
               ⟨"created_user", FieldTypeString, "created_user", true⟩,
               ⟨"created_date", FieldTypeDate, "created_date", true⟩,
               ⟨"last_edited_user", FieldTypeString, "last_edited_user", true⟩,
               ⟨"last_edited_date", FieldTypeDate, "last_edited_date", true⟩] }

/-- The struct `FeatureAttributes` wrapped as the attributes member of a record
shape with a point geometry. -/
def WrappedFeatureAttributesT : GoType :=
  .mkStruct "main.WrappedFeature"
    [⟨"Attributes", "attributes", FeatureAttributesT⟩,
     ⟨"Geometry", "geometry", GeometryPointT⟩]

/-- The descriptor of `json.RawMessage`, a defined type over `[]byte`. -/
def RawMessageT : GoType := .other .slice "json.RawMessage"

/-- A record shape whose attributes member holds raw JSON bytes. -/
def RawAttributesFeatureT : GoType :=
  .mkStruct "main.RawAttributesFeature"
    [⟨"Attributes", "attributes", RawMessageT⟩,
     ⟨"Geometry", "geometry", GeometryPointT⟩]

/-- A record shape whose attributes member is a map. -/
def MapAttributesFeatureT : GoType :=
  .mkStruct "main.MapAttributesFeature"
    [⟨"Attributes", "attributes", .other .map "map[string]interface {}"⟩,
     ⟨"Geometry", "geometry", GeometryPointT⟩]

/-- A record shape with a multipoint geometry member whose attributes
container has a member without `json` tag. -/
def UntaggedMultiPointT : GoType :=
  .mkStruct "main.UntaggedMultiPoint"
    [⟨"Attributes", "attributes",
        .mkStruct "main.UntaggedAttributes"
          [⟨"ObjectID", "objectid", .basic .int32⟩, ⟨"Rotation", "", .pointer (.basic .int16)⟩]⟩,
     ⟨"Geometry", "geometry", GeometryMultiPointT⟩]

/-- A record shape with a point geometry member whose attributes container
has a member without `json` tag. -/
def UntaggedPointT : GoType :=
  .mkStruct "main.UntaggedPoint"
    [⟨"Attributes", "attributes",
        .mkStruct "main.UntaggedAttributes"
          [⟨"ObjectID", "objectid", .basic .int32⟩, ⟨"Rotation", "", .pointer (.basic .int16)⟩]⟩,
     ⟨"Geometry", "geometry", GeometryPointT⟩]

mutual
/-- A JSON value, as `encoding/json` decodes it into an `interface{}`: `null`
is the nil interface, a number a `float64`, an array a `[]interface{}` and an
object a `map[string]interface{}` (given by its members in wire order). -/
inductive Json where
  | null
  | bool (b : Bool)
  | num (n : Number)
  | str (s : String)
  | arr (elems : JsonList)
  | obj (members : JsonMembers)
deriving DecidableEq
/-- The elements of a JSON array. -/
inductive JsonList where
  | nil
  | cons (head : Json) (tail : JsonList)
deriving DecidableEq
/-- The members of a JSON object, in wire order. -/
inductive JsonMembers where
  | nil
  | cons (key : String) (value : Json) (rest : JsonMembers)
deriving DecidableEq
end

/-- The elements of a JSON array as a list. -/
def JsonList.toList : JsonList → List Json
  | .nil => []
  | .cons h t => h :: t.toList

/-- The members of a JSON object as a list. -/
def JsonMembers.toList : JsonMembers → List (String × Json)
  | .nil => []
  | .cons k v rest => (k, v) :: rest.toList

/-- Build the element sequence of a JSON array from a list. -/
def JsonList.ofList : List Json → JsonList
  | [] => .nil
  | j :: rest => .cons j (JsonList.ofList rest)

/-- Build the member sequence of a JSON object from a list. -/
def JsonMembers.ofList : List (String × Json) → JsonMembers
  | [] => .nil
  | (k, v) :: rest => .cons k v (JsonMembers.ofList rest)

/-- The JSON array of the listed elements. -/
def Json.array (elems : List Json) : Json := .arr (JsonList.ofList elems)

/-- The JSON object of the listed members. -/
def Json.object (members : List (String × Json)) : Json := .obj (JsonMembers.ofList members)

/-- A Go `map[string]interface{}` holding decoded JSON; the first entry of a
key is its value. -/
abbrev JsonMap := List (String × Json)

/-- The two-valued lookup `v, ok := m[k]`. -/
def JsonMap.get? (m : JsonMap) (k : String) : Option Json := List.lookup k m

/-- The struct `ErrResponseError` of `errors.go`. -/
structure ErrResponseError where
  Code : Int
  Message : String
  Details : List String
deriving DecidableEq, Repr

/-- A Go `error` returned by the client. -/
inductive Error where
  /-- The sentinel `ErrNotFound`. -/
  | ErrNotFound
  /-- A value of type `ErrResponseError`. -/
  | response (e : ErrResponseError)
  /-- The result of `fmt.Errorf`, by its message. -/
  | errorf (msg : String)
deriving DecidableEq, Repr

/-- The struct `GeometryPoint` of `geometry.go`. -/
structure GeometryPoint where
  X : Number
  Y : Number
deriving DecidableEq, Repr

/-- The struct `GeometryMultiPoint` of `geometry.go`. -/
structure GeometryMultiPoint where
  Points : List (List Number)
deriving DecidableEq, Repr

/-- A value of the member `Geometry interface{}` of `Feature`: what
`json.Unmarshal` stored there, or one of the three geometry structs. -/
inductive Geometry where
  | raw (j : Json)
  | GeometryNone
  | GeometryPoint (g : GeometryPoint)
  | GeometryMultiPoint (g : GeometryMultiPoint)
deriving DecidableEq

/-- The struct `Feature` of `feature.go`; `Attributes` is the raw JSON of the
attributes, `none` when the member was absent. -/
structure Feature where
  Attributes : Option Json
  Geometry : Geometry
deriving DecidableEq

/-- The struct `Field` of `field.go`. -/
structure Field where
  Name : String
  Alias : String
  Typ : String
  Length : Int
deriving DecidableEq, Repr

/-- The struct `QueryVariables` of `query.go`. -/
structure QueryVariables where
  Where : String
  ReturnGeometry : Bool
  OutFields : Option (List String)
  ResultRecordCount : Int
deriving DecidableEq, Repr

/-- The struct `QueryResults` of `query.go`. -/
structure QueryResults where
  ObjectIDFieldName : String
  GlobalIDFieldName : String
  GeometryType : String
  Fields : List Field
  Features : List Feature
deriving DecidableEq

/-- The struct `LayerEditResults` of `edits.go`. -/
structure LayerEditResults where
  LayerID : Nat
  AddResults : List Json
  UpdateResults : List Json
  DeleteResults : List Json
deriving DecidableEq

/-- The type `ApplyEditsResults` of `edits.go`. -/
abbrev ApplyEditsResults := List LayerEditResults

/-- The HTTP response the transport hands back: the status code and the body
read by `io.ReadAll`, given by the JSON value its text denotes (`none` when the
text is not JSON). -/
structure Response where
  StatusCode : Int
  Body : Option Json
deriving DecidableEq

/-- The library functions the decoders call, at the types they are called at.
Each decoding into a struct yields the struct as the library left it (starting
from the zero value) and the library's error message, if any. -/
structure Codec where
  /-- The call `json.Unmarshal(respBody, &m)` for a nil `m map[string]interface{}`. -/
  unmarshalMap : Option Json → Except String JsonMap
  /-- The call `json.Unmarshal(respBody, &results)` for `results QueryResults`. -/
  unmarshalQueryResults : Option Json → QueryResults × Option String
  /-- The call `json.Unmarshal(respBody, &results)` for `results ApplyEditsResults`. -/
  unmarshalApplyEditsResults : Option Json → ApplyEditsResults × Option String
  /-- The call `mapstructure.Decode(respError, &errRespErr)`. -/
  decodeErrResponseError : Json → ErrResponseError × Option String
  /-- The call `mapstructure.Decode(respJSON, &info)` for `info FeatureLayerInfo`. -/
  decodeFeatureLayerInfo : JsonMap → FeatureLayerInfo × Option String
  /-- The call `mapstructure.Decode(respJSON, &info)` for `info TableInfo`. -/
  decodeTableInfo : JsonMap → TableInfo × Option String
  /-- The call `mapstructure.Decode(f.Geometry, &geometry)` for `geometry GeometryPoint`. -/
  decodeGeometryPoint : Geometry → GeometryPoint × Option String
  /-- The call `mapstructure.Decode(f.Geometry, &geometry)` for `geometry GeometryMultiPoint`. -/
  decodeGeometryMultiPoint : Geometry → GeometryMultiPoint × Option String
  /-- What the verb `%s` prints for a decoded JSON value that is not a string. -/
  formatNonString : Json → String

/-- What `%s` prints for a decoded JSON value: a string prints as itself. -/
def Codec.sprintS (c : Codec) : Json → String
  | .str s => s
  | j => c.formatNonString j

/-- The zero value of `QueryResults`. -/
def QueryResults.zero : QueryResults := ⟨"", "", "", [], []⟩

/-! ## The decoders (`info.go`, `query.go`, `edits.go`)

Each function is the part of the method that runs once `httpClient.Do` has
returned a response and `io.ReadAll` has read its body; the result is the pair
the method returns. -/

/-- Lines 89-96 of `info.go`, 97-104 of `query.go`, 86-93 of `edits.go`: the
error for a status code other than 200, `none` for 200. -/
def statusError (statusCode : Int) : Option Error :=
  if statusCode ≠ 200 then
    if statusCode = 404 then some .ErrNotFound
    else some (.errorf ("unhandled status code: " ++ toString statusCode))
  else none

/-- Lines 108-115 of `info.go`, 116-123 of `query.go`, 102-109 of `edits.go`: the
error returned for the value stored under the key `error`. -/
def responseError (c : Codec) (respError : Json) : Error :=
  match c.decodeErrResponseError respError with
  | (_, some e) => .errorf ("failed to decode error response: " ++ e)
  | (errRespErr, none) => .response errRespErr

/-- The method `Layer.Info` from line 89 of `info.go` on. -/
def Layer.Info (c : Codec) (resp : Response) : Info × Option Error :=
  match statusError resp.StatusCode with
  | some e => (.nil, some e)
  | none =>
    match c.unmarshalMap resp.Body with
    | .error e => (.nil, some (.errorf ("failed to unmarshal response body: " ++ e)))
    | .ok respJSON =>
      match respJSON.get? "error" with
      | some respError => (.nil, some (responseError c respError))
      | none =>
        match respJSON.get? "type" with
        | none => (.nil, some (.errorf "missing layer type in response"))
        | some layerType =>
          if layerType = .str LayerTypeFeatureLayer then
            match c.decodeFeatureLayerInfo respJSON with
            | (info, some e) =>
              (.featureLayer info, some (.errorf ("failed to decode feature layer info: " ++ e)))
            | (info, none) => (.featureLayer info, none)
          else if layerType = .str LayerTypeTable then
            match c.decodeTableInfo respJSON with
            | (info, some e) =>
              (.table info, some (.errorf ("failed to decode table info: " ++ e)))
            | (info, none) => (.table info, none)
          else
            (.nil, some (.errorf ("unhandled layer type: " ++ c.sprintS layerType)))

/-- The loop of lines 129-150 of `query.go` over `results.Features`: the
features as the loop leaves them, and the error that ended it, if any. -/
def decodeGeometries (c : Codec) (returnGeometry : Bool) (geometryType : String) :
    List Feature → List Feature × Option Error
  | [] => ([], none)
  | f :: rest =>
    if !returnGeometry then
      let (rest', err) := decodeGeometries c returnGeometry geometryType rest
      ({ f with Geometry := .GeometryNone } :: rest', err)
    else if geometryType = GeometryTypePoint then
      match c.decodeGeometryPoint f.Geometry with
      | (_, some e) => (f :: rest, some (.errorf ("failed to decode point geometry: " ++ e)))
      | (geometry, none) =>
        let (rest', err) := decodeGeometries c returnGeometry geometryType rest
        ({ f with Geometry := .GeometryPoint geometry } :: rest', err)
    else if geometryType = GeometryTypeMultiPoint then
      match c.decodeGeometryMultiPoint f.Geometry with
      | (_, some e) =>
        (f :: rest, some (.errorf ("failed to decode multipoint geometry: " ++ e)))
      | (geometry, none) =>
        let (rest', err) := decodeGeometries c returnGeometry geometryType rest
        ({ f with Geometry := .GeometryMultiPoint geometry } :: rest', err)
    else
      (f :: rest, some (.errorf ("unhandled geometry type: " ++ geometryType)))

/-- The method `Layer.Query` from line 97 of `query.go` on. -/
def Layer.Query (c : Codec) (vars : QueryVariables) (resp : Response) :
    QueryResults × Option Error :=
  match statusError resp.StatusCode with
  | some e => (QueryResults.zero, some e)
  | none =>
    match c.unmarshalMap resp.Body with
    | .error e =>
      (QueryResults.zero, some (.errorf ("failed to unmarshal response body: " ++ e)))
    | .ok respJSON =>
      match respJSON.get? "error" with
      | some respError => (QueryResults.zero, some (responseError c respError))
      | none =>
        match c.unmarshalQueryResults resp.Body with
        | (results, some e) =>
          (results, some (.errorf ("failed to decode query results: " ++ e)))
        | (results, none) =>
          let (features, err) :=
            decodeGeometries c vars.ReturnGeometry results.GeometryType results.Features
          ({ results with Features := features }, err)

/-- The method `Layer.ApplyEdits` from line 86 of `edits.go` on. -/
def Layer.ApplyEdits (c : Codec) (resp : Response) : ApplyEditsResults × Option Error :=
  match statusError resp.StatusCode with
  | some e => ([], some e)
  | none =>
    let respError : Option Json :=
      match c.unmarshalMap resp.Body with
      | .ok respErr => respErr.get? "error"
      | .error _ => none
    match respError with
    | some respError => ([], some (responseError c respError))
    | none =>
      match c.unmarshalApplyEditsResults resp.Body with
      | (results, some e) =>
        (results, some (.errorf ("failed to decode query results: " ++ e)))
      | (results, none) => (results, none)

/-! ## A reference codec

`goCodec` describes `encoding/json` and `mapstructure` (default configuration:
no weak typing, unused keys ignored) on the JSON shapes of the service.  The
error texts are indicative.  The general theorems below hold for every codec;
this one serves to evaluate the decoders on concrete responses. -/

/-- The conversion `int64(f)` of a number: truncation towards zero. -/
def Number.toInt (n : Number) : Int :=
  if 0 ≤ n.exp10 then n.mant * 10 ^ n.exp10.toNat
  else Int.tdiv n.mant (10 ^ (-n.exp10).toNat)

/-- The number is written as an integer numeral. -/
def Number.isInt (n : Number) : Bool := decide (0 ≤ n.exp10)

/-- The name of the Go kind of a decoded JSON value. -/
def Json.kindName : Json → String
  | .null => "invalid" | .bool _ => "bool" | .num _ => "float64" | .str _ => "string"
  | .arr _ => "slice" | .obj _ => "map"

/-- The name `encoding/json` gives the JSON value in a type error. -/
def Json.jsonName : Json → String
  | .null => "null" | .bool _ => "bool" | .num _ => "number" | .str _ => "string"
  | .arr _ => "array" | .obj _ => "object"

/-- The function `strings.EqualFold` on ASCII text. -/
def equalFold (a b : String) : Bool :=
  a.data.map Char.toLower == b.data.map Char.toLower

/-- The Go map a JSON object decodes into: of two members with the same key
the later one counts. -/
def JsonMembers.toMap (ms : JsonMembers) : JsonMap := ms.toList.reverse

/-- The entry a struct field is decoded from: the one under the field's name,
else the first one whose key equals the name under case folding. -/
def fieldEntry (m : JsonMap) (fieldName : String) : Option Json :=
  match m.get? fieldName with
  | some v => some v
  | none => (m.find? fun kv => equalFold kv.1 fieldName).map Prod.snd

/-- A decoded value with the errors met on the way. -/
abbrev Decoded (α : Type) := α × List String

/-- Decode one struct field: an absent or null entry leaves the zero value. -/
def decodeField {α : Type} (zero : α) (entry : Option Json) (dec : Json → Decoded α) :
    Decoded α :=
  match entry with
  | none => (zero, [])
  | some .null => (zero, [])
  | some j => dec j

/-- The error text of `mapstructure` for a value of the wrong kind. -/
def unconvertible (name expected : String) (j : Json) : String :=
  "'" ++ name ++ "' expected type '" ++ expected ++ "', got unconvertible type '" ++
    j.kindName ++ "'"

def decodeString (name : String) : Json → Decoded String
  | .str s => (s, [])
  | j => ("", [unconvertible name "string" j])

def decodeBool (name : String) : Json → Decoded Bool
  | .bool b => (b, [])
  | j => (false, [unconvertible name "bool" j])

def decodeInt (name : String) : Json → Decoded Int
  | .num n => (n.toInt, [])
  | j => (0, [unconvertible name "int" j])

def decodeUint8 (name : String) : Json → Decoded Nat
  | .num n =>
    if n.mant < 0 then (0, ["cannot parse '" ++ name ++ "', value overflows uint"])
    else (n.toInt.toNat % 256, [])
  | j => (0, [unconvertible name "uint8" j])

def decodeFloat (name : String) : Json → Decoded Number
  | .num n => (n, [])
  | j => (⟨0, 0⟩, [unconvertible name "float" j])

/-- Decode a slice: every element is decoded, a null element stays zero. -/
def decodeSlice {α : Type} (name : String) (zero : α) (dec : Json → Decoded α) :
    Json → Decoded (List α)
  | .arr elems =>
    let ds := elems.toList.map fun j => decodeField zero (some j) dec
    (ds.map Prod.fst, (ds.map Prod.snd).flatten)
  | j => ([], ["'" ++ name ++ "': source data must be an array or slice, got " ++ j.kindName])

/-- The text of the error `mapstructure` returns for a list of field errors. -/
def mapstructureError (errs : List String) : Option String :=
  if errs = [] then none
  else some (toString errs.length ++ " error(s) decoding:\n\n" ++
    "\n".intercalate (errs.map fun e => "* " ++ e))

/-- Decode the struct `ErrResponseError` from a map. -/
def decodeErrResponseErrorMap (m : JsonMap) : Decoded ErrResponseError :=
  let code := decodeField 0 (fieldEntry m "Code") (decodeInt "Code")
  let message := decodeField "" (fieldEntry m "Message") (decodeString "Message")
  let details := decodeField [] (fieldEntry m "Details")
    (decodeSlice "Details" "" (decodeString "Details"))
  (⟨code.1, message.1, details.1⟩, code.2 ++ message.2 ++ details.2)

/-- Decode the struct `FieldInfo` from a JSON value. -/
def decodeFieldInfo (name : String) : Json → Decoded FieldInfo
  | .obj ms =>
    let m := ms.toMap
    let n := decodeField "" (fieldEntry m "Name") (decodeString (name ++ ".Name"))
    let t := decodeField "" (fieldEntry m "Type") (decodeString (name ++ ".Type"))
    let a := decodeField "" (fieldEntry m "Alias") (decodeString (name ++ ".Alias"))
    let b := decodeField false (fieldEntry m "Nullable") (decodeBool (name ++ ".Nullable"))
    (⟨n.1, t.1, a.1, b.1⟩, n.2 ++ t.2 ++ a.2 ++ b.2)
  | j => (⟨"", "", "", false⟩, ["'" ++ name ++ "' expected a map, got '" ++ j.kindName ++ "'"])

/-- Decode the struct `FeatureLayerInfo` from a map. -/
def decodeFeatureLayerInfoMap (m : JsonMap) : Decoded FeatureLayerInfo :=
  let id := decodeField 0 (fieldEntry m "ID") (decodeUint8 "ID")
  let v := decodeField ⟨0, 0⟩ (fieldEntry m "CurrentVersion") (decodeFloat "CurrentVersion")
  let n := decodeField "" (fieldEntry m "Name") (decodeString "Name")
  let t := decodeField "" (fieldEntry m "Type") (decodeString "Type")
  let g := decodeField "" (fieldEntry m "GeometryType") (decodeString "GeometryType")
  let fs := decodeField [] (fieldEntry m "Fields")
    (decodeSlice "Fields" ⟨"", "", "", false⟩ (decodeFieldInfo "Fields"))
  (⟨id.1, v.1, n.1, t.1, g.1, fs.1⟩, id.2 ++ v.2 ++ n.2 ++ t.2 ++ g.2 ++ fs.2)

/-- Decode the struct `TableInfo` from a map. -/
def decodeTableInfoMap (m : JsonMap) : Decoded TableInfo :=
  let id := decodeField 0 (fieldEntry m "ID") (decodeUint8 "ID")
  let v := decodeField ⟨0, 0⟩ (fieldEntry m "CurrentVersion") (decodeFloat "CurrentVersion")
  let n := decodeField "" (fieldEntry m "Name") (decodeString "Name")
  let t := decodeField "" (fieldEntry m "Type") (decodeString "Type")
  let fs := decodeField [] (fieldEntry m "Fields")
    (decodeSlice "Fields" ⟨"", "", "", false⟩ (decodeFieldInfo "Fields"))
  (⟨id.1, v.1, n.1, t.1, fs.1⟩, id.2 ++ v.2 ++ n.2 ++ t.2 ++ fs.2)

/-- Run a struct decoder of `mapstructure` on a decoded JSON value: nil input
leaves the zero value, a map is decoded, anything else is an error. -/
def decodeStruct {α : Type} (zero : α) (dec : JsonMap → Decoded α) : Json → α × Option String
  | .null => (zero, none)
  | .obj ms => let d := dec ms.toMap; (d.1, mapstructureError d.2)
  | j => (zero, some ("'' expected a map, got '" ++ j.kindName ++ "'"))

/-- Decode the struct `GeometryPoint` from a map. -/
def decodeGeometryPointMap (m : JsonMap) : Decoded GeometryPoint :=
  let x := decodeField ⟨0, 0⟩ (fieldEntry m "X") (decodeFloat "X")
  let y := decodeField ⟨0, 0⟩ (fieldEntry m "Y") (decodeFloat "Y")
  (⟨x.1, y.1⟩, x.2 ++ y.2)

/-- Decode the struct `GeometryMultiPoint` from a map. -/
def decodeGeometryMultiPointMap (m : JsonMap) : Decoded GeometryMultiPoint :=
  let ps := decodeField [] (fieldEntry m "Points")
    (decodeSlice "Points" [] (decodeSlice "Points" ⟨0, 0⟩ (decodeFloat "Points")))
  (⟨ps.1⟩, ps.2)

/-- The JSON value a geometry member holds when it still is what
`json.Unmarshal` stored; the geometry structs are not decoded again. -/
def Geometry.json : Geometry → Json
  | .raw j => j
  | _ => .null

/-- The entry `encoding/json` decodes a struct field from: the one under the
field's key, else the last one whose key equals it under case folding. -/
def jsonEntry (m : JsonMap) (key : String) : Option Json := fieldEntry m key

/-- The error text of `encoding/json` for a value of the wrong type. -/
def typeError (j : Json) (field goType : String) : String :=
  "json: cannot unmarshal " ++ j.jsonName ++ " into Go struct field " ++ field ++
    " of type " ++ goType

def unmarshalString (field : String) : Json → Decoded String
  | .str s => (s, [])
  | j => ("", [typeError j field "string"])

def unmarshalInt (field : String) : Json → Decoded Int
  | .num n => if n.isInt then (n.toInt, []) else (0, [typeError (.num n) field "int"])
  | j => (0, [typeError j field "int"])

def unmarshalUint8 (field : String) : Json → Decoded Nat
  | .num n =>
    if n.isInt ∧ 0 ≤ n.toInt ∧ n.toInt < 256 then (n.toInt.toNat, [])
    else (0, [typeError (.num n) field "uint8"])
  | j => (0, [typeError j field "uint8"])

def unmarshalSlice {α : Type} (field goType : String) (zero : α) (dec : Json → Decoded α) :
    Json → Decoded (List α)
  | .arr elems =>
    let ds := elems.toList.map fun j => decodeField zero (some j) dec
    (ds.map Prod.fst, (ds.map Prod.snd).flatten)
  | j => ([], [typeError j field goType])

/-- Decode the struct `Field` with `encoding/json`. -/
def unmarshalFieldStruct : Json → Decoded Field
  | .obj ms =>
    let m := ms.toMap
    let n := decodeField "" (jsonEntry m "name") (unmarshalString "QueryResults.fields.name")
    let a := decodeField "" (jsonEntry m "alias") (unmarshalString "QueryResults.fields.alias")
    let t := decodeField "" (jsonEntry m "type") (unmarshalString "QueryResults.fields.type")
    let l := decodeField 0 (jsonEntry m "length") (unmarshalInt "QueryResults.fields.length")
    (⟨n.1, a.1, t.1, l.1⟩, n.2 ++ a.2 ++ t.2 ++ l.2)
  | j => (⟨"", "", "", 0⟩, [typeError j "QueryResults.fields" "featureserver.Field"])

/-- Decode the struct `Feature` with `encoding/json`: the attributes stay raw
and the geometry is stored as the decoded JSON value. -/
def unmarshalFeature : Json → Decoded Feature
  | .obj ms =>
    let m := ms.toMap
    let g : Json := (jsonEntry m "geometry").getD .null
    (⟨jsonEntry m "attributes", .raw g⟩, [])
  | j => (⟨none, .raw .null⟩, [typeError j "QueryResults.features" "featureserver.Feature"])

/-- Decode the struct `QueryResults` with `encoding/json`. -/
def unmarshalQueryResultsJson : Option Json → QueryResults × Option String
  | none => (QueryResults.zero, some "invalid character looking for beginning of value")
  | some .null => (QueryResults.zero, none)
  | some (.obj ms) =>
    let m := ms.toMap
    let o := decodeField "" (jsonEntry m "objectIdFieldName")
      (unmarshalString "QueryResults.objectIdFieldName")
    let g := decodeField "" (jsonEntry m "globalIdFieldName")
      (unmarshalString "QueryResults.globalIdFieldName")
    let t := decodeField "" (jsonEntry m "geometryType")
      (unmarshalString "QueryResults.geometryType")
    let fs := decodeField [] (jsonEntry m "fields")
      (unmarshalSlice "QueryResults.fields" "[]featureserver.Field" ⟨"", "", "", 0⟩
        unmarshalFieldStruct)
    let ft := decodeField [] (jsonEntry m "features")
      (unmarshalSlice "QueryResults.features" "[]featureserver.Feature" ⟨none, .raw .null⟩
        unmarshalFeature)
    (⟨o.1, g.1, t.1, fs.1, ft.1⟩, (o.2 ++ g.2 ++ t.2 ++ fs.2 ++ ft.2).head?)
  | some j =>
    (QueryResults.zero, some ("json: cannot unmarshal " ++ j.jsonName ++
      " into Go value of type featureserver.QueryResults"))

/-- Decode a slice of raw JSON messages with `encoding/json`. -/
def unmarshalRawSlice (field : String) : Json → Decoded (List Json)
  | .arr elems => (elems.toList, [])
  | j => ([], [typeError j field "[]json.RawMessage"])

/-- Decode the struct `LayerEditResults` with `encoding/json`. -/
def unmarshalLayerEditResults : Json → Decoded LayerEditResults
  | .obj ms =>
    let m := ms.toMap
    let i := decodeField 0 (jsonEntry m "id") (unmarshalUint8 "LayerEditResults.id")
    let a := decodeField [] (jsonEntry m "addsResults")
      (unmarshalRawSlice "LayerEditResults.addsResults")
    let u := decodeField [] (jsonEntry m "updateResults")
      (unmarshalRawSlice "LayerEditResults.updateResults")
    let d := decodeField [] (jsonEntry m "deleteResults")
      (unmarshalRawSlice "LayerEditResults.deleteResults")
    (⟨i.1, a.1, u.1, d.1⟩, i.2 ++ a.2 ++ u.2 ++ d.2)
  | j => (⟨0, [], [], []⟩, ["json: cannot unmarshal " ++ j.jsonName ++
      " into Go value of type featureserver.LayerEditResults"])

/-- Decode `ApplyEditsResults` with `encoding/json`. -/
def unmarshalApplyEditsResultsJson : Option Json → ApplyEditsResults × Option String
  | none => ([], some "invalid character looking for beginning of value")
  | some .null => ([], none)
  | some (.arr elems) =>
    let ds := elems.toList.map fun j => decodeField ⟨0, [], [], []⟩ (some j)
      unmarshalLayerEditResults
    (ds.map Prod.fst, ((ds.map Prod.snd).flatten).head?)
  | some j =>
    ([], some ("json: cannot unmarshal " ++ j.jsonName ++
      " into Go value of type []featureserver.LayerEditResults"))

/-- Decode a response body into a `map[string]interface{}` with
`encoding/json`. -/
def unmarshalMapJson : Option Json → Except String JsonMap
  | none => .error "invalid character looking for beginning of value"
  | some .null => .ok []
  | some (.obj ms) => .ok ms.toMap
  | some j =>
    .error ("json: cannot unmarshal " ++ j.jsonName ++
      " into Go value of type map[string]interface {}")

/-- The reference codec. -/
def goCodec : Codec where
  unmarshalMap := unmarshalMapJson
  unmarshalQueryResults := unmarshalQueryResultsJson
  unmarshalApplyEditsResults := unmarshalApplyEditsResultsJson
  decodeErrResponseError := decodeStruct ⟨0, "", []⟩ decodeErrResponseErrorMap
  decodeFeatureLayerInfo := fun m =>
    let d := decodeFeatureLayerInfoMap m; (d.1, mapstructureError d.2)
  decodeTableInfo := fun m =>
    let d := decodeTableInfoMap m; (d.1, mapstructureError d.2)
  decodeGeometryPoint := fun g => decodeStruct ⟨⟨0, 0⟩, ⟨0, 0⟩⟩ decodeGeometryPointMap g.json
  decodeGeometryMultiPoint := fun g => decodeStruct ⟨[]⟩ decodeGeometryMultiPointMap g.json
  formatNonString := fun j => "%!s(" ++ j.kindName ++ ")"

/-! ### Example responses -/

/-- A query response of a polygon layer whose only feature carries a geometry
payload. -/
def polygonQueryBody : Json :=
  .object [("objectIdFieldName", .str "objectid"),
           ("geometryType", .str "esriGeometryPolygon"),
           ("features", .array [.object
              [("attributes", .object [("objectid", .num ⟨1, 0⟩)]),
               ("geometry", .object [("x", .num ⟨1, 0⟩), ("y", .num ⟨2, 0⟩)])]])]

/-- The body the service answers with for a layer that does not exist
(`info_test.go`, "Layer not found"). -/
def notFoundBody : Json :=
  .object [("error", .object [("code", .num ⟨500, 0⟩), ("message", .str "json"),
                              ("details", .array [])])]

/-- A body whose `error` key holds a string. -/
def stringErrorBody : Json := .object [("error", .str "oops")]

/-- A metadata body of an unknown layer type. -/
def groupLayerBody : Json := .object [("id", .num ⟨3, 0⟩), ("type", .str "Group Layer")]

/-- The metadata body of layer 0 of the test service, reduced to the members
the client decodes. -/
def wildfireBody : Json :=
  .object [("currentVersion", .num ⟨1091, -2⟩), ("id", .num ⟨0, 0⟩),
           ("name", .str "Wildfire Response Points"), ("type", .str "Feature Layer"),
           ("geometryType", .str "esriGeometryPoint"),
           ("fields", .array
             [.object [("name", .str "objectid"), ("type", .str "esriFieldTypeOID"),
                       ("alias", .str "OBJECTID"), ("nullable", .bool false)],
              .object [("name", .str "rotation"), ("type", .str "esriFieldTypeSmallInteger"),
                       ("alias", .str "Rotation"), ("nullable", .bool true)]])]

/-- A feature-layer metadata body whose `name` is a number. -/
def numericNameBody : Json :=
  .object [("type", .str "Feature Layer"), ("name", .num ⟨5, 0⟩)]

/-- A query response of a polygon layer without features. -/
def emptyPolygonQueryBody : Json :=
  .object [("objectIdFieldName", .str "objectid"),
           ("geometryType", .str "esriGeometryPolygon"),
           ("features", .array [])]

/-- A query response of a point layer with two features (`query_test.go`). -/
def pointQueryBody : Json :=
  .object [("objectIdFieldName", .str "objectid"),
           ("geometryType", .str "esriGeometryPoint"),
           ("features", .array
             [.object [("attributes", .object [("objectid", .num ⟨4247677, 0⟩)]),
                       ("geometry", .object [("x", .num ⟨-1226764, -4⟩),
                                             ("y", .num ⟨455165, -4⟩)])],
              .object [("attributes", .object [("objectid", .num ⟨4247698, 0⟩)]),
                       ("geometry", .object [("x", .num ⟨1, 0⟩), ("y", .num ⟨2, 0⟩)])]])]

/-! ## Specification-level notions -/

/-- The type-mapping table of the specification: the base representation of each
declared field type. -/
def typeTable : List (String × GoType) :=
  [("esriFieldTypeOID", .basic .int32),
   ("esriFieldTypeSmallInteger", .basic .int16),
   ("esriFieldTypeInteger", .basic .int32),
   ("esriFieldTypeFloat", .basic .float32),
   ("esriFieldTypeDouble", .basic .float64),
   ("esriFieldTypeString", .basic .string),
   ("esriFieldTypeDate", DateT)]

/-- The representation the specification expects for a declared type: the base
representation, in pointer form when the field is nullable; `none` for a
declared type outside the table. -/
def expectedRepresentation (declaredType : String) (nullable : Bool) : Option GoType :=
  (typeTable.lookup declaredType).map fun base => if nullable then .pointer base else base

/-- The declared type is one of the seven known field types. -/
def KnownFieldType (declaredType : String) : Prop :=
  declaredType ∈ typeTable.map Prod.fst

instance (t : String) : Decidable (KnownFieldType t) := by
  unfold KnownFieldType; infer_instance

/-- The schema fields of a layer info (none for a value that is neither
metadata struct). -/
def Info.Fields : Info → List FieldInfo
  | .featureLayer i => i.Fields
  | .table i => i.Fields
  | _ => []

/-- Go's rule for the direct fields of a struct type: the names are non-empty
and pairwise distinct. -/
def GoNames (ms : List StructField) : Prop :=
  (∀ m ∈ ms, m.Name ≠ "") ∧ (ms.map (fun m => m.Name)).Nodup

/-- Every member declares a non-empty wire key. -/
def HasWireKeys (ms : List StructField) : Prop := ∀ m ∈ ms, m.wireKey ≠ ""

/-- No two members declare the same wire key. -/
def DistinctWireKeys (ms : List StructField) : Prop :=
  (ms.map (fun m => m.wireKey)).Nodup

instance (ms : List StructField) : Decidable (GoNames ms) := by
  unfold GoNames; infer_instance

instance (ms : List StructField) : Decidable (HasWireKeys ms) := by
  unfold HasWireKeys; infer_instance

instance (ms : List StructField) : Decidable (DistinctWireKeys ms) := by
  unfold DistinctWireKeys; infer_instance

/-- The member `m` of an attributes container has the representation the
specification expects for the schema field `f`. -/
def Matches (m : StructField) (f : FieldInfo) : Prop :=
  expectedRepresentation f.Typ f.Nullable = some m.Typ

instance (m : StructField) (f : FieldInfo) : Decidable (Matches m f) := by
  unfold Matches; infer_instance

/-- The map the loop of lines 86-93 builds from a list of members. -/
def tagNames (ms : List StructField) : GoMap :=
  (ms.map fun f => (f.wireKey, f.Name)).reverse

/-! # Theorems -/

/-! ## Association lists and field lookup -/

theorem lookup_eq_none_iff (k : String) (l : List (String × String)) :
    List.lookup k l = none ↔ ∀ p ∈ l, p.1 ≠ k := by
  induction l with
  | nil => simp [List.lookup]
  | cons p l ih =>
    obtain ⟨a, b⟩ := p
    by_cases h : k = a
    · subst h; simp [List.lookup]
    · have h2 : (k == a) = false := by simpa using h
      simp [List.lookup, h2, ih, Ne.symm h]

theorem mem_of_lookup_eq_some {k v : String} {l : List (String × String)}
    (h : List.lookup k l = some v) : (k, v) ∈ l := by
  induction l with
  | nil => simp [List.lookup] at h
  | cons p l ih =>
    obtain ⟨a, b⟩ := p
    by_cases hk : k = a
    · subst hk; simp [List.lookup] at h; simp [h]
    · have h2 : (k == a) = false := by simpa using hk
      simp [List.lookup, h2] at h
      exact List.mem_cons_of_mem _ (ih h)

theorem lookup_of_mem_nodup {k v : String} {l : List (String × String)}
    (hnd : (l.map Prod.fst).Nodup) (h : (k, v) ∈ l) : List.lookup k l = some v := by
  induction l with
  | nil => simp at h
  | cons p l ih =>
    obtain ⟨a, b⟩ := p
    simp only [List.map_cons, List.nodup_cons] at hnd
    rcases List.mem_cons.mp h with e | hmem
    · cases e; simp [List.lookup]
    · have hne : k ≠ a := by
        intro e
        exact hnd.1 (List.mem_map.mpr ⟨(k, v), hmem, e⟩)
      have h2 : (k == a) = false := by simpa using hne
      simp [List.lookup, h2, ih hnd.2 hmem]

theorem mem_tagNames {k n : String} {ms : List StructField} :
    (k, n) ∈ tagNames ms ↔ ∃ m ∈ ms, m.wireKey = k ∧ m.Name = n := by
  simp [tagNames]

theorem tagNames_get?_eq_none {k : String} {ms : List StructField} :
    GoMap.get? (tagNames ms) k = none ↔ ∀ m ∈ ms, m.wireKey ≠ k := by
  rw [GoMap.get?, lookup_eq_none_iff]
  simp [tagNames]

theorem tagNames_get?_some {k n : String} {ms : List StructField}
    (h : GoMap.get? (tagNames ms) k = some n) : ∃ m ∈ ms, m.wireKey = k ∧ m.Name = n :=
  mem_tagNames.mp (mem_of_lookup_eq_some h)

theorem tagNames_get?_of_mem {ms : List StructField} (hd : DistinctWireKeys ms)
    {m : StructField} (hm : m ∈ ms) : GoMap.get? (tagNames ms) m.wireKey = some m.Name := by
  apply lookup_of_mem_nodup
  · unfold DistinctWireKeys at hd
    simpa [tagNames, List.map_reverse, Function.comp_def] using hd
  · exact mem_tagNames.mpr ⟨m, hm, rfl, rfl⟩

theorem find?_name_of_mem {ms : List StructField}
    (hnd : (ms.map (fun m => m.Name)).Nodup) {m : StructField} (hm : m ∈ ms) :
    ms.find? (fun f => f.Name == m.Name) = some m := by
  induction ms with
  | nil => simp at hm
  | cons a ms ih =>
    simp only [List.map_cons, List.nodup_cons] at hnd
    rcases List.mem_cons.mp hm with h | h
    · subst h; simp [List.find?]
    · have hne : a.Name ≠ m.Name := by
        intro e
        exact hnd.1 (List.mem_map.mpr ⟨m, h, e.symm⟩)
      have h2 : (a.Name == m.Name) = false := by simpa using hne
      simp [List.find?, h2, ih hnd.2 h]

theorem FieldByName_of_mem {t : GoType} (hn : GoNames t.fields) {m : StructField}
    (hm : m ∈ t.fields) : t.FieldByName m.Name = some m := by
  unfold GoType.FieldByName
  rw [if_neg (hn.1 m hm)]
  exact find?_name_of_mem hn.2 hm

/-- The tag-collecting loop passes exactly when every member declares a wire
key, and then yields the map of wire keys to Go names. -/
theorem collectJsonTags_ok {ms : List StructField} (h : HasWireKeys ms) (acc : GoMap) :
    collectJsonTags ms acc = .ok (tagNames ms ++ acc) := by
  induction ms generalizing acc with
  | nil => simp [collectJsonTags, tagNames]
  | cons f rest ih =>
    have hf : splitFirst f.jsonTag ≠ "" := h f (List.mem_cons_self _ _)
    have hr : HasWireKeys rest := fun m hm => h m (List.mem_cons_of_mem _ hm)
    simp [collectJsonTags, hf, ih hr, tagNames, GoMap.set, StructField.wireKey]

theorem collectJsonTags_ok_inv {ms : List StructField} {acc r : GoMap}
    (h : collectJsonTags ms acc = .ok r) : HasWireKeys ms ∧ r = tagNames ms ++ acc := by
  induction ms generalizing acc with
  | nil =>
    simp [collectJsonTags] at h
    simp [HasWireKeys, tagNames, h]
  | cons f rest ih =>
    by_cases hf : splitFirst f.jsonTag = ""
    · simp [collectJsonTags, hf] at h
    · simp only [collectJsonTags, hf, if_false] at h
      obtain ⟨h1, h2⟩ := ih h
      refine ⟨?_, ?_⟩
      · intro m hm
        rcases List.mem_cons.mp hm with e | e
        · subst e; exact hf
        · exact h1 m e
      · simp [h2, tagNames, GoMap.set, StructField.wireKey]

/-! ## The type-mapping table and the field loop -/

/-- The switch of the validator computes the base representation of the
specification's table. -/
theorem expectType_eq_table (t : String) : expectType t = typeTable.lookup t := by
  unfold expectType typeTable FieldTypeOID FieldTypeSmallInt FieldTypeInt FieldTypeFloat
    FieldTypeDouble FieldTypeString FieldTypeDate
  simp only [List.lookup]
  repeat' split
  all_goals simp_all

theorem expectedRepresentation_eq (t : String) (nullable : Bool) :
    expectedRepresentation t nullable =
      (expectType t).map fun e => expectReflectType e nullable := by
  simp [expectedRepresentation, expectType_eq_table, expectReflectType]

theorem knownFieldType_iff (t : String) : KnownFieldType t ↔ ∃ e, expectType t = some e := by
  unfold KnownFieldType expectType typeTable FieldTypeOID FieldTypeSmallInt FieldTypeInt
    FieldTypeFloat FieldTypeDouble FieldTypeString FieldTypeDate
  simp only [List.map_cons, List.map_nil, List.mem_cons, List.mem_singleton]
  repeat' split
  all_goals simp_all

theorem expectType_eq_none_iff (t : String) : expectType t = none ↔ ¬ KnownFieldType t := by
  rw [knownFieldType_iff]
  cases expectType t <;> simp

/-- A wire key that some member declares resolves, through the map of the
loop and `FieldByName`, to a member declaring it. -/
theorem resolve_declared {A : GoType} (hn : GoNames A.fields) {k : String}
    (h : ∃ m ∈ A.fields, m.wireKey = k) :
    ∃ m ∈ A.fields, m.wireKey = k ∧ GoMap.get? (tagNames A.fields) k = some m.Name ∧
      A.FieldByName m.Name = some m := by
  cases hl : GoMap.get? (tagNames A.fields) k with
  | none =>
    obtain ⟨m, hm, hk⟩ := h
    exact absurd hk (tagNames_get?_eq_none.mp hl m hm)
  | some n =>
    obtain ⟨m, hm, hk, hname⟩ := tagNames_get?_some hl
    exact ⟨m, hm, hk, by rw [hname], FieldByName_of_mem hn hm⟩

theorem eq_of_wireKey_eq {ms : List StructField} (hd : DistinctWireKeys ms)
    {a b : StructField} (ha : a ∈ ms) (hb : b ∈ ms) (h : a.wireKey = b.wireKey) : a = b :=
  List.inj_on_of_nodup_map hd ha hb h

/-- The loop body on a resolved member of known expected type. -/
theorem validateField_resolved {A : GoType} {names : GoMap} {f : FieldInfo}
    {m : StructField} {e : GoType}
    (hget : names.get? f.Name = some m.Name) (hfield : A.FieldByName m.Name = some m)
    (he : expectType f.Typ = some e) :
    validateField A names f =
      if m.Typ ≠ expectReflectType e f.Nullable then
        .err ("field '" ++ f.Name ++ "' has type '" ++ m.Typ.string ++
          "' but expected type '" ++ (expectReflectType e f.Nullable).string ++ "'")
      else .ok := by
  simp only [validateField, hget, hfield, he]

/-- The loop body on a resolved member of a field with an unknown type. -/
theorem validateField_unknown {A : GoType} {names : GoMap} {f : FieldInfo}
    {m : StructField}
    (hget : names.get? f.Name = some m.Name) (hfield : A.FieldByName m.Name = some m)
    (he : expectType f.Typ = none) :
    validateField A names f = .err ("unhandled field type: " ++ f.Typ) := by
  simp only [validateField, hget, hfield, he]

theorem matches_iff {m : StructField} {f : FieldInfo} :
    Matches m f ↔ ∃ e, expectType f.Typ = some e ∧ m.Typ = expectReflectType e f.Nullable := by
  unfold Matches
  rw [expectedRepresentation_eq]
  cases expectType f.Typ <;> simp [eq_comm]

/-- With distinct wire keys, a schema field passes the loop body only when
the member declared under its wire key has the expected representation. -/
theorem matches_of_validateField_ok {A : GoType} (hn : GoNames A.fields)
    (hd : DistinctWireKeys A.fields) {f : FieldInfo}
    (h : validateField A (tagNames A.fields) f = .ok) :
    ∀ m ∈ A.fields, m.wireKey = f.Name → Matches m f := by
  intro m hm hk
  obtain ⟨m', hm', hk', hget, hfield⟩ := resolve_declared hn ⟨m, hm, hk⟩
  have hmm : m' = m := eq_of_wireKey_eq hd hm' hm (hk'.trans hk.symm)
  subst hmm
  cases he : expectType f.Typ with
  | none => rw [validateField_unknown hget hfield he] at h; cases h
  | some e =>
    rw [validateField_resolved hget hfield he] at h
    by_cases hty : m'.Typ = expectReflectType e f.Nullable
    · exact matches_iff.mpr ⟨e, he, hty⟩
    · simp [hty] at h

theorem validateFields_ok_iff (A : GoType) (names : GoMap) (fields : List FieldInfo) :
    validateFields A names fields = .ok ↔ ∀ f ∈ fields, validateField A names f = .ok := by
  induction fields with
  | nil => simp [validateFields]
  | cons f rest ih =>
    simp only [validateFields, List.mem_cons, forall_eq_or_imp]
    cases hf : validateField A names f <;> simp [ih]

/-- The loop body never panics and its errors are messages. -/
theorem validateField_ok_or_err (A : GoType) (names : GoMap) (f : FieldInfo) :
    validateField A names f = .ok ∨ ∃ msg, validateField A names f = .err msg := by
  unfold validateField
  repeat' split
  all_goals simp

theorem validateFields_ok_or_err (A : GoType) (names : GoMap) (fields : List FieldInfo) :
    validateFields A names fields = .ok ∨ ∃ msg, validateFields A names fields = .err msg := by
  induction fields with
  | nil => simp [validateFields]
  | cons f rest ih =>
    rcases validateField_ok_or_err A names f with h | ⟨msg, h⟩
    · simpa [validateFields, h] using ih
    · right; exact ⟨msg, by simp [validateFields, h]⟩

/-! ## The container and geometry checks -/

theorem attributeNames_inv {A : GoType} {names : GoMap} (h : attributeNames A = .ok names) :
    A.kind = Kind.struct ∧ HasWireKeys A.fields ∧ names = tagNames A.fields := by
  unfold attributeNames at h
  by_cases hk : A.kind = Kind.struct
  · simp only [hk, ne_eq, not_true_eq_false, if_false] at h
    obtain ⟨h1, h2⟩ := collectJsonTags_ok_inv h
    exact ⟨hk, h1, by simpa using h2⟩
  · simp [hk] at h

theorem schemaOf_fields {info : Info} {fields : List FieldInfo} {expect : String}
    (h : schemaOf info = .ok (fields, expect)) : fields = info.Fields := by
  cases info <;> simp [schemaOf, Info.Fields] at h ⊢ <;> simp [h]

/-- What a passing run of the checks of lines 11-93 yields. -/
theorem containerChecks_inv {feature : Option GoType} {info : Info} {A : GoType}
    {names : GoMap} {fields : List FieldInfo}
    (h : containerChecks feature info = .ok (A, names, fields)) :
    A.kind = Kind.struct ∧ HasWireKeys A.fields ∧ names = tagNames A.fields ∧
      fields = info.Fields := by
  unfold containerChecks at h
  cases hr : resolveContainers feature with
  | error e => simp [hr, bind, Except.bind] at h
  | ok ag =>
    obtain ⟨a, g⟩ := ag
    cases hs : schemaOf info with
    | error e => simp [hr, hs, bind, Except.bind] at h
    | ok fe =>
      obtain ⟨fs, expect⟩ := fe
      cases hg : checkGeometry expect g.Typ with
      | error e => simp [hr, hs, hg, bind, Except.bind] at h
      | ok u =>
        cases hn : attributeNames a.Typ with
        | error e => simp [hr, hs, hg, hn, bind, Except.bind] at h
        | ok nm =>
          simp [hr, hs, hg, hn, bind, Except.bind, pure, Except.pure] at h
          obtain ⟨h1, h2, h3⟩ := h
          subst h1 h2 h3
          obtain ⟨k1, k2, k3⟩ := attributeNames_inv hn
          exact ⟨k1, k2, k3, schemaOf_fields hs⟩

theorem ValidateFeature_of_checks {feature : Option GoType} {info : Info} {A : GoType}
    {names : GoMap} {fields : List FieldInfo}
    (h : containerChecks feature info = .ok (A, names, fields)) :
    ValidateFeature feature info = validateFields A names fields := by
  simp [ValidateFeature, h]

/-! ## Validation: the claims -/

/-- C9, as stated, fails: a schema field of a type outside the table that has
no declared member is skipped, and validation passes. -/
theorem ValidateFeature_unknown_type_skipped :
    (∃ f ∈ (Info.featureLayer globalIdInfo).Fields, ¬ KnownFieldType f.Typ) ∧
    (∃ r, containerChecks (some NewFeatureT) (.featureLayer globalIdInfo) = .ok r) ∧
    ValidateFeature (some NewFeatureT) (.featureLayer globalIdInfo) = .ok :=
  ⟨by decide, ⟨_, rfl⟩, by decide⟩

/-- C9, amended: when the checks of lines 11-93 pass, a schema field of a type
outside the table whose wire key is declared in the attributes container makes
validation fail. -/
theorem ValidateFeature_unknown_declared_type (feature : Option GoType) (info : Info)
    (A : GoType) (names : GoMap) (f : FieldInfo)
    (hchecks : containerChecks feature info = .ok (A, names, info.Fields))
    (hf : f ∈ info.Fields) (hunknown : ¬ KnownFieldType f.Typ)
    (hdeclared : ∃ m ∈ A.fields, m.wireKey = f.Name) :
    ∃ msg, ValidateFeature feature info = .err msg := by
  obtain ⟨_, _, hn, _⟩ := containerChecks_inv hchecks
  subst hn
  rw [ValidateFeature_of_checks hchecks]
  rcases validateFields_ok_or_err A (tagNames A.fields) info.Fields with h | h
  · exfalso
    have hstep := (validateFields_ok_iff _ _ _).mp h f hf
    have he : expectType f.Typ = none := (expectType_eq_none_iff _).mpr hunknown
    unfold validateField at hstep
    cases hl : GoMap.get? (tagNames A.fields) f.Name with
    | none =>
      obtain ⟨m, hm, hk⟩ := hdeclared
      exact tagNames_get?_eq_none.mp hl m hm hk
    | some n =>
      rw [hl] at hstep
      cases hb : A.FieldByName n with
      | none => simp [hb] at hstep
      | some x => simp [hb, he] at hstep
  · exact h

/-- C9, amended, on the scenario: `globalid` declared as a string member. -/
theorem ValidateFeature_unknown_declared_type_witness :
    ∃ msg, ValidateFeature
      (some (.mkStruct "main.F"
        [⟨"Attributes", "attributes",
            .mkStruct "main.A" [⟨"GlobalID", "globalid", .basic .string⟩]⟩,
         ⟨"Geometry", "geometry", GeometryPointT⟩]))
      (.featureLayer globalIdInfo) = .err msg :=
  ValidateFeature_unknown_declared_type _ (.featureLayer globalIdInfo)
    (.mkStruct "main.A" [⟨"GlobalID", "globalid", .basic .string⟩]) _
    ⟨"globalid", "esriFieldTypeGlobalID", "GlobalID", false⟩
    rfl (by decide) (by decide) (by decide)

/-- Without a request for geometry the loop sets every geometry to
`GeometryNone` and ends without error. -/
theorem decodeGeometries_without_geometry (c : Codec) (geometryType : String)
    (fs : List Feature) :
    decodeGeometries c false geometryType fs =
      (fs.map fun f => { f with Geometry := Geometry.GeometryNone }, none) := by
  induction fs with
  | nil => rfl
  | cons f rest ih => simp [decodeGeometries, ih]

/-- An error-free run of `Query` returns what the codec decoded from the
body, with the features as the geometry loop left them. -/
theorem Query_ok_eq (c : Codec) (vars : QueryVariables) (resp : Response)
    (results : QueryResults) (hq : Layer.Query c vars resp = (results, none)) :
    (c.unmarshalQueryResults resp.Body).2 = none ∧
    ∃ fs, decodeGeometries c vars.ReturnGeometry
        (c.unmarshalQueryResults resp.Body).1.GeometryType
        (c.unmarshalQueryResults resp.Body).1.Features = (fs, none) ∧
      results = { (c.unmarshalQueryResults resp.Body).1 with Features := fs } := by
  unfold Layer.Query at hq
  cases hst : statusError resp.StatusCode with
  | some e => simp [hst] at hq
  | none =>
    cases hm : c.unmarshalMap resp.Body with
    | error e => simp [hst, hm] at hq
    | ok respJSON =>
      cases hr : respJSON.get? "error" with
      | some v => simp [hst, hm, hr] at hq
      | none =>
        rcases hu : c.unmarshalQueryResults resp.Body with ⟨r, _ | e⟩
        · rcases hd : decodeGeometries c vars.ReturnGeometry r.GeometryType r.Features
            with ⟨fs, err⟩
          simp only [hst, hm, hr, hu, hd, Prod.mk.injEq] at hq
          obtain ⟨h1, h2⟩ := hq
          subst h1 h2
          exact ⟨rfl, _, rfl, rfl⟩
        · simp [hst, hm, hr, hu] at hq

/-- C4: when `ReturnGeometry` is false, a result that `Query` returns without
error is the result decoded from the body with the geometry of every feature
replaced by `GeometryNone`: no feature is dropped or added, the attributes are
kept, and every geometry is `GeometryNone`, whatever the codec decoded from
the wire and whatever the declared geometry type. -/
theorem Query_without_geometry (c : Codec) (vars : QueryVariables) (resp : Response)
    (results : QueryResults) (hflag : vars.ReturnGeometry = false)
    (hq : Layer.Query c vars resp = (results, none)) :
    results =
      { (c.unmarshalQueryResults resp.Body).1 with
        Features := (c.unmarshalQueryResults resp.Body).1.Features.map fun f =>
          { f with Geometry := Geometry.GeometryNone } } ∧
    results.Features.length = (c.unmarshalQueryResults resp.Body).1.Features.length ∧
    ∀ f ∈ results.Features, f.Geometry = Geometry.GeometryNone := by
  obtain ⟨_, fs, hd, hres⟩ := Query_ok_eq c vars resp results hq
  rw [hflag, decodeGeometries_without_geometry] at hd
  simp only [Prod.mk.injEq, and_true] at hd
  subst hd
  subst hres
  refine ⟨rfl, by simp, ?_⟩
  intro f hf
  simp only [List.mem_map] at hf
  obtain ⟨g, _, rfl⟩ := hf
  rfl

/-- C4, on a polygon layer: the one feature is kept with its attributes, and
the geometry payload that `encoding/json` stored is replaced by
`GeometryNone`. -/
theorem Query_without_geometry_witness :
    (goCodec.unmarshalQueryResults (some polygonQueryBody)).1.Features =
      [⟨some (.object [("objectid", .num ⟨1, 0⟩)]),
        .raw (.object [("x", .num ⟨1, 0⟩), ("y", .num ⟨2, 0⟩)])⟩] ∧
    Layer.Query goCodec ⟨"1=1", false, none, 0⟩ ⟨200, some polygonQueryBody⟩ =
      (⟨"objectid", "", "esriGeometryPolygon", [],
        [⟨some (.object [("objectid", .num ⟨1, 0⟩)]), Geometry.GeometryNone⟩]⟩, none) :=
  have h := (Query_without_geometry goCodec ⟨"1=1", false, none, 0⟩
    ⟨200, some polygonQueryBody⟩
    (Layer.Query goCodec ⟨"1=1", false, none, 0⟩ ⟨200, some polygonQueryBody⟩).1 rfl
    (by decide)).1
  ⟨by decide, Prod.ext (h.trans (by decide)) (by decide)⟩

/-- C5, as stated, fails: a value under the key `error` that does not decode
into an error envelope yields a plain error, not an `ErrResponseError`. -/
theorem error_envelope_not_decodable :
    (∃ m, goCodec.unmarshalMap (some stringErrorBody) = .ok m ∧
      m.get? "error" = some (.str "oops")) ∧
    Layer.Info goCodec ⟨200, some stringErrorBody⟩ =
      (.nil, some (.errorf "failed to decode error response: '' expected a map, got 'string'")) ∧
    ¬ ∃ e, (Layer.Info goCodec ⟨200, some stringErrorBody⟩).2 = some (.response e) :=
  ⟨⟨_, rfl, by decide⟩, by decide, by
    rintro ⟨e, he⟩
    have h : (Layer.Info goCodec ⟨200, some stringErrorBody⟩).2 =
        some (.errorf "failed to decode error response: '' expected a map, got 'string'") := by
      decide
    rw [h] at he
    cases he⟩

/-- C5, amended: for a 200-status body whose top-level object holds the key
`error`, `Info`, `Query` and `ApplyEdits` return no success value but the error
made from the value under that key: the `ErrResponseError` the value decodes
into, or a "failed to decode error response" error when it does not decode. -/
theorem error_envelope (c : Codec) (vars : QueryVariables) (body : Option Json)
    (m : JsonMap) (v : Json)
    (hm : c.unmarshalMap body = .ok m) (hv : m.get? "error" = some v) :
    (Layer.Info c ⟨200, body⟩ = (.nil, some (responseError c v)) ∧
      Layer.Query c vars ⟨200, body⟩ = (QueryResults.zero, some (responseError c v)) ∧
      Layer.ApplyEdits c ⟨200, body⟩ = ([], some (responseError c v))) ∧
    (∀ e, c.decodeErrResponseError v = (e, none) → responseError c v = .response e) ∧
    (∀ e msg, c.decodeErrResponseError v = (e, some msg) →
      responseError c v = .errorf ("failed to decode error response: " ++ msg)) := by
  have hst : statusError 200 = none := by decide
  refine ⟨⟨?_, ?_, ?_⟩, ?_, ?_⟩
  · simp [Layer.Info, hst, hm, hv]
  · simp [Layer.Query, hst, hm, hv]
  · simp [Layer.ApplyEdits, hst, hm, hv]
  · intro e he; simp [responseError, he]
  · intro e msg he; simp [responseError, he]

/-- C5, amended, on the body of the test "Layer not found": code 500, message
`json`, no details. -/
theorem error_envelope_witness :
    Layer.Info goCodec ⟨200, some notFoundBody⟩ = (.nil, some (.response ⟨500, "json", []⟩)) ∧
    Layer.Query goCodec ⟨"1=1", true, none, 0⟩ ⟨200, some notFoundBody⟩ =
      (QueryResults.zero, some (.response ⟨500, "json", []⟩)) ∧
    Layer.ApplyEdits goCodec ⟨200, some notFoundBody⟩ =
      ([], some (.response ⟨500, "json", []⟩)) :=
  have h := error_envelope goCodec ⟨"1=1", true, none, 0⟩ (some notFoundBody)
    [("error", .object [("code", .num ⟨500, 0⟩), ("message", .str "json"),
                        ("details", .array [])])]
    (.object [("code", .num ⟨500, 0⟩), ("message", .str "json"), ("details", .array [])])
    rfl rfl
  have hr := h.2.1 ⟨500, "json", []⟩ rfl
  ⟨hr ▸ h.1.1, hr ▸ h.1.2.1, hr ▸ h.1.2.2⟩

/-- C7: for a response object without `error` key whose `type` key holds a
string other than `Feature Layer` and `Table`, `Info` returns no metadata
value and an error whose message carries that string. -/
theorem Info_unhandled_layer_type (c : Codec) (body : Option Json) (m : JsonMap)
    (s : String) (hm : c.unmarshalMap body = .ok m) (herr : m.get? "error" = none)
    (ht : m.get? "type" = some (.str s))
    (hfl : s ≠ LayerTypeFeatureLayer) (htb : s ≠ LayerTypeTable) :
    Layer.Info c ⟨200, body⟩ = (.nil, some (.errorf ("unhandled layer type: " ++ s))) := by
  have hst : statusError 200 = none := by decide
  simp [Layer.Info, hst, hm, herr, ht, hfl, htb, Codec.sprintS]

/-- C7, on a group layer. -/
theorem Info_unhandled_layer_type_witness :
    Layer.Info goCodec ⟨200, some groupLayerBody⟩ =
      (.nil, some (.errorf "unhandled layer type: Group Layer")) :=
  Info_unhandled_layer_type goCodec (some groupLayerBody)
    [("type", .str "Group Layer"), ("id", .num ⟨3, 0⟩)] "Group Layer"
    rfl rfl rfl (by decide) (by decide)

/-- C8, as stated, fails: a payload of type `Feature Layer` whose other
members do not decode into the struct makes `Info` fail. -/
theorem Info_feature_layer_not_decodable :
    (∃ m, goCodec.unmarshalMap (some numericNameBody) = .ok m ∧ m.get? "error" = none ∧
      m.get? "type" = some (.str LayerTypeFeatureLayer)) ∧
    (Layer.Info goCodec ⟨200, some numericNameBody⟩).2 ≠ none :=
  ⟨⟨_, rfl, by decide, by decide⟩, by decide⟩

/-- C8, amended: for a response object without `error` key, `Info` fails with
"missing layer type in response" when the `type` key is absent; when `type`
is `Feature Layer` it returns the payload decoded as a `FeatureLayerInfo`
(never a `TableInfo`), without error when the payload decodes and with a
"failed to decode feature layer info" error when it does not; when `type` is
`Table` it does the same with a `TableInfo`. -/
theorem Info_variant_selection (c : Codec) (body : Option Json) (m : JsonMap)
    (hm : c.unmarshalMap body = .ok m) (herr : m.get? "error" = none) :
    (m.get? "type" = none →
      Layer.Info c ⟨200, body⟩ = (.nil, some (.errorf "missing layer type in response"))) ∧
    (m.get? "type" = some (.str LayerTypeFeatureLayer) →
      (Layer.Info c ⟨200, body⟩).1 = .featureLayer (c.decodeFeatureLayerInfo m).1 ∧
      ((c.decodeFeatureLayerInfo m).2 = none → (Layer.Info c ⟨200, body⟩).2 = none) ∧
      (∀ e, (c.decodeFeatureLayerInfo m).2 = some e →
        (Layer.Info c ⟨200, body⟩).2 =
          some (.errorf ("failed to decode feature layer info: " ++ e)))) ∧
    (m.get? "type" = some (.str LayerTypeTable) →
      (Layer.Info c ⟨200, body⟩).1 = .table (c.decodeTableInfo m).1 ∧
      ((c.decodeTableInfo m).2 = none → (Layer.Info c ⟨200, body⟩).2 = none) ∧
      (∀ e, (c.decodeTableInfo m).2 = some e →
        (Layer.Info c ⟨200, body⟩).2 =
          some (.errorf ("failed to decode table info: " ++ e)))) := by
  have hst : statusError 200 = none := by decide
  have hne : (Json.str LayerTypeTable = Json.str LayerTypeFeatureLayer) = False := by
    simp [LayerTypeTable, LayerTypeFeatureLayer]
  refine ⟨?_, ?_, ?_⟩
  · intro ht
    simp [Layer.Info, hst, hm, herr, ht]
  · intro ht
    rcases hd : c.decodeFeatureLayerInfo m with ⟨i, _ | e⟩ <;>
      simp [Layer.Info, hst, hm, herr, ht, hd]
  · intro ht
    rcases hd : c.decodeTableInfo m with ⟨i, _ | e⟩ <;>
      simp [Layer.Info, hst, hm, herr, ht, hd, hne]

/-- C8, amended, on the metadata of layer 0 of the test service: the returned
value is a `FeatureLayerInfo` with the id, name and version of the payload. -/
theorem Info_variant_selection_witness :
    Layer.Info goCodec ⟨200, some wildfireBody⟩ = (.featureLayer wildfireInfo, none) :=
  have h := (Info_variant_selection goCodec (some wildfireBody) _ rfl (by decide)).2.1
    (by decide)
  Prod.ext (h.1.trans (by decide)) (h.2.1 (by decide))

/-- With a request for geometry on a point result, a run of the loop that
ends without error has decoded every geometry as a point. -/
theorem decodeGeometries_point (c : Codec) (fs out : List Feature)
    (h : decodeGeometries c true GeometryTypePoint fs = (out, none)) :
    out = fs.map fun f =>
      { f with Geometry := Geometry.GeometryPoint (c.decodeGeometryPoint f.Geometry).1 } := by
  induction fs generalizing out with
  | nil => simpa [decodeGeometries] using h.symm
  | cons f rest ih =>
    rcases hd : c.decodeGeometryPoint f.Geometry with ⟨g, _ | e⟩
    · rcases hr : decodeGeometries c true GeometryTypePoint rest with ⟨rest', err⟩
      simp only [decodeGeometries, hd, hr, Bool.not_true, Bool.false_eq_true, if_false,
        if_true, Prod.mk.injEq] at h
      obtain ⟨h1, h2⟩ := h
      subst h1 h2
      rw [ih rest' hr]
      simp [hd]
    · simp [decodeGeometries, hd] at h

/-- With a request for geometry on a multipoint result, a run of the loop that
ends without error has decoded every geometry as a multipoint. -/
theorem decodeGeometries_multiPoint (c : Codec) (fs out : List Feature)
    (h : decodeGeometries c true GeometryTypeMultiPoint fs = (out, none)) :
    out = fs.map fun f =>
      { f with Geometry :=
          Geometry.GeometryMultiPoint (c.decodeGeometryMultiPoint f.Geometry).1 } := by
  have hmp : GeometryTypeMultiPoint ≠ GeometryTypePoint := by decide
  induction fs generalizing out with
  | nil => simpa [decodeGeometries] using h.symm
  | cons f rest ih =>
    rcases hd : c.decodeGeometryMultiPoint f.Geometry with ⟨g, _ | e⟩
    · rcases hr : decodeGeometries c true GeometryTypeMultiPoint rest with ⟨rest', err⟩
      simp only [decodeGeometries, hd, hr, hmp, Bool.not_true, Bool.false_eq_true, if_false,
        if_true, Prod.mk.injEq] at h
      obtain ⟨h1, h2⟩ := h
      subst h1 h2
      rw [ih rest' hr]
      simp [hd]
    · simp [decodeGeometries, hd, hmp] at h

/-- With a request for geometry, a geometry type other than point and
multipoint ends the loop at the first feature. -/
theorem decodeGeometries_unhandled (c : Codec) (geometryType : String)
    (hp : geometryType ≠ GeometryTypePoint) (hm : geometryType ≠ GeometryTypeMultiPoint)
    (f : Feature) (rest : List Feature) :
    decodeGeometries c true geometryType (f :: rest) =
      (f :: rest, some (.errorf ("unhandled geometry type: " ++ geometryType))) := by
  simp [decodeGeometries, hp, hm]

/-- What an error-free run of `Query` went through. -/
theorem Query_ok_inv (c : Codec) (vars : QueryVariables) (resp : Response)
    (results : QueryResults) (hq : Layer.Query c vars resp = (results, none)) :
    ∃ r, c.unmarshalQueryResults resp.Body = (r, none) ∧
      results.GeometryType = r.GeometryType ∧
      decodeGeometries c vars.ReturnGeometry r.GeometryType r.Features =
        (results.Features, none) := by
  unfold Layer.Query at hq
  cases hst : statusError resp.StatusCode with
  | some e => simp [hst] at hq
  | none =>
    cases hm : c.unmarshalMap resp.Body with
    | error e => simp [hst, hm] at hq
    | ok respJSON =>
      cases hr : respJSON.get? "error" with
      | some v => simp [hst, hm, hr] at hq
      | none =>
        rcases hu : c.unmarshalQueryResults resp.Body with ⟨r, _ | e⟩
        · refine ⟨r, rfl, ?_⟩
          rcases hd : decodeGeometries c vars.ReturnGeometry r.GeometryType r.Features
            with ⟨fs, err⟩
          simp only [hst, hm, hr, hu, hd, Prod.mk.injEq] at hq
          obtain ⟨h1, h2⟩ := hq
          subst h1 h2
          exact ⟨rfl, rfl⟩
        · simp [hst, hm, hr, hu] at hq

/-- With a request for geometry on a point result, a run of the loop that
ends without error met no decoding error. -/
theorem decodeGeometries_point_no_error (c : Codec) (fs out : List Feature)
    (h : decodeGeometries c true GeometryTypePoint fs = (out, none)) :
    ∀ f ∈ fs, (c.decodeGeometryPoint f.Geometry).2 = none := by
  induction fs generalizing out with
  | nil => intro f hf; simp at hf
  | cons a rest ih =>
    rcases hd : c.decodeGeometryPoint a.Geometry with ⟨g, _ | e⟩
    · rcases hr : decodeGeometries c true GeometryTypePoint rest with ⟨rest', err⟩
      simp only [decodeGeometries, hd, hr, Bool.not_true, Bool.false_eq_true, if_false,
        if_true, Prod.mk.injEq] at h
      obtain ⟨_, h2⟩ := h
      subst h2
      intro f hf
      rcases List.mem_cons.mp hf with e | e
      · subst e; rw [hd]
      · exact ih rest' hr f e
    · simp [decodeGeometries, hd] at h

/-- With a request for geometry on a multipoint result, a run of the loop that
ends without error met no decoding error. -/
theorem decodeGeometries_multiPoint_no_error (c : Codec) (fs out : List Feature)
    (h : decodeGeometries c true GeometryTypeMultiPoint fs = (out, none)) :
    ∀ f ∈ fs, (c.decodeGeometryMultiPoint f.Geometry).2 = none := by
  have hmp : GeometryTypeMultiPoint ≠ GeometryTypePoint := by decide
  induction fs generalizing out with
  | nil => intro f hf; simp at hf
  | cons a rest ih =>
    rcases hd : c.decodeGeometryMultiPoint a.Geometry with ⟨g, _ | e⟩
    · rcases hr : decodeGeometries c true GeometryTypeMultiPoint rest with ⟨rest', err⟩
      simp only [decodeGeometries, hd, hr, hmp, Bool.not_true, Bool.false_eq_true, if_false,
        if_true, Prod.mk.injEq] at h
      obtain ⟨_, h2⟩ := h
      subst h2
      intro f hf
      rcases List.mem_cons.mp hf with e | e
      · subst e; rw [hd]
      · exact ih rest' hr f e
    · simp [decodeGeometries, hd, hmp] at h

/-- C14: when `ReturnGeometry` is true, the geometry variant of a result that
`Query` returns without error is chosen by the result's geometry type, the same
for every feature.  For `esriGeometryPoint` the returned features are the
decoded features, in order and with their attributes, each with its wire
geometry decoded into a `GeometryPoint` (and each decoding succeeded); for
`esriGeometryMultipoint` likewise with `GeometryMultiPoint`. -/
theorem Query_with_geometry (c : Codec) (vars : QueryVariables) (resp : Response)
    (results : QueryResults) (hflag : vars.ReturnGeometry = true)
    (hq : Layer.Query c vars resp = (results, none)) :
    results.GeometryType = (c.unmarshalQueryResults resp.Body).1.GeometryType ∧
    (results.GeometryType = GeometryTypePoint →
      results.Features = (c.unmarshalQueryResults resp.Body).1.Features.map (fun f =>
        { f with Geometry := Geometry.GeometryPoint (c.decodeGeometryPoint f.Geometry).1 }) ∧
      (∀ f ∈ (c.unmarshalQueryResults resp.Body).1.Features,
        (c.decodeGeometryPoint f.Geometry).2 = none) ∧
      ∀ f ∈ results.Features, ∃ g, f.Geometry = Geometry.GeometryPoint g) ∧
    (results.GeometryType = GeometryTypeMultiPoint →
      results.Features = (c.unmarshalQueryResults resp.Body).1.Features.map (fun f =>
        { f with Geometry :=
            Geometry.GeometryMultiPoint (c.decodeGeometryMultiPoint f.Geometry).1 }) ∧
      (∀ f ∈ (c.unmarshalQueryResults resp.Body).1.Features,
        (c.decodeGeometryMultiPoint f.Geometry).2 = none) ∧
      ∀ f ∈ results.Features, ∃ g, f.Geometry = Geometry.GeometryMultiPoint g) := by
  obtain ⟨_, fs, hd, hres⟩ := Query_ok_eq c vars resp results hq
  rw [hflag] at hd
  subst hres
  refine ⟨rfl, ?_, ?_⟩
  · intro h
    simp only at h
    rw [h] at hd
    have hfs := decodeGeometries_point c _ _ hd
    refine ⟨hfs, decodeGeometries_point_no_error c _ _ hd, ?_⟩
    intro f hf
    simp only at hf
    rw [hfs] at hf
    obtain ⟨x, _, rfl⟩ := List.mem_map.mp hf
    exact ⟨_, rfl⟩
  · intro h
    simp only at h
    rw [h] at hd
    have hfs := decodeGeometries_multiPoint c _ _ hd
    refine ⟨hfs, decodeGeometries_multiPoint_no_error c _ _ hd, ?_⟩
    intro f hf
    simp only at hf
    rw [hfs] at hf
    obtain ⟨x, _, rfl⟩ := List.mem_map.mp hf
    exact ⟨_, rfl⟩

/-- C14, on a point layer with two features: both are returned, each with the
coordinates of its own wire geometry. -/
theorem Query_with_geometry_witness :
    Layer.Query goCodec ⟨"1=1", true, none, 0⟩ ⟨200, some pointQueryBody⟩ =
      (⟨"objectid", "", "esriGeometryPoint", [],
        [⟨some (.object [("objectid", .num ⟨4247677, 0⟩)]),
            Geometry.GeometryPoint ⟨⟨-1226764, -4⟩, ⟨455165, -4⟩⟩⟩,
         ⟨some (.object [("objectid", .num ⟨4247698, 0⟩)]),
            Geometry.GeometryPoint ⟨⟨1, 0⟩, ⟨2, 0⟩⟩⟩]⟩, none) ∧
    (Layer.Query goCodec ⟨"1=1", true, none, 0⟩ ⟨200, some pointQueryBody⟩).1.Features =
      (goCodec.unmarshalQueryResults (some pointQueryBody)).1.Features.map (fun f =>
        { f with
          Geometry := Geometry.GeometryPoint (goCodec.decodeGeometryPoint f.Geometry).1 }) :=
  ⟨by decide,
   ((Query_with_geometry goCodec ⟨"1=1", true, none, 0⟩ ⟨200, some pointQueryBody⟩ _ rfl
    (by decide)).2.1 (by decide)).1⟩

/-- C15, as stated, fails: for an empty feature list the loop never runs and
`Query` returns without error, whatever the declared geometry type. -/
theorem Query_unhandled_geometry_empty :
    (goCodec.unmarshalQueryResults (some emptyPolygonQueryBody)).1.GeometryType =
      "esriGeometryPolygon" ∧
    (goCodec.unmarshalQueryResults (some emptyPolygonQueryBody)).1.Features = [] ∧
    (Layer.Query goCodec ⟨"1=1", true, none, 0⟩ ⟨200, some emptyPolygonQueryBody⟩).2 = none :=
  ⟨by decide, by decide, by decide⟩

/-- C15, amended: for an error-free query response decoded with
`ReturnGeometry = true` whose declared geometry type is neither
`esriGeometryPoint` nor `esriGeometryMultipoint`, `Query` fails with
"unhandled geometry type: " followed by that geometry type when the feature
list is not empty, and returns the decoded results without error when it is
empty. -/
theorem Query_unhandled_geometry (c : Codec) (vars : QueryVariables) (body : Option Json)
    (m : JsonMap) (r : QueryResults) (hflag : vars.ReturnGeometry = true)
    (hm : c.unmarshalMap body = .ok m) (herr : m.get? "error" = none)
    (hu : c.unmarshalQueryResults body = (r, none))
    (hp : r.GeometryType ≠ GeometryTypePoint)
    (hmp : r.GeometryType ≠ GeometryTypeMultiPoint) :
    (r.Features ≠ [] →
      Layer.Query c vars ⟨200, body⟩ =
        (r, some (.errorf ("unhandled geometry type: " ++ r.GeometryType)))) ∧
    (r.Features = [] → Layer.Query c vars ⟨200, body⟩ = (r, none)) := by
  have hst : statusError 200 = none := by decide
  constructor
  · intro hne
    cases hf : r.Features with
    | nil => exact absurd hf hne
    | cons f rest =>
      simp only [Layer.Query, hst, hm, herr, hu, hflag, hf,
        decodeGeometries_unhandled c _ hp hmp]
      rw [← hf]
  · intro hnil
    simp only [Layer.Query, hst, hm, herr, hu, hflag, hnil, decodeGeometries]
    rw [← hnil]

/-- C15, amended, on a polygon layer with one feature. -/
theorem Query_unhandled_geometry_witness :
    Layer.Query goCodec ⟨"1=1", true, none, 0⟩ ⟨200, some polygonQueryBody⟩ =
      ((goCodec.unmarshalQueryResults (some polygonQueryBody)).1,
        some (.errorf "unhandled geometry type: esriGeometryPolygon")) :=
  (Query_unhandled_geometry goCodec ⟨"1=1", true, none, 0⟩ (some polygonQueryBody)
    _ _ rfl rfl (by decide) rfl (by decide) (by decide)).1 (by decide)

/-- C16: the status code decides before the body is looked at.  For 404 the
three methods return `ErrNotFound`, for every other code except 200 an error
whose message carries the code, in both cases whatever the codec and the body;
for 200 they go on to decode the body, so that a body that does not unmarshal
is reported by `Info` and `Query` and handed to the result decoder by
`ApplyEdits`. -/
theorem status_classification (c : Codec) (vars : QueryVariables) (body : Option Json) :
    (Layer.Info c ⟨404, body⟩ = (.nil, some .ErrNotFound) ∧
      Layer.Query c vars ⟨404, body⟩ = (QueryResults.zero, some .ErrNotFound) ∧
      Layer.ApplyEdits c ⟨404, body⟩ = ([], some .ErrNotFound)) ∧
    (∀ code : Int, code ≠ 200 → code ≠ 404 →
      Layer.Info c ⟨code, body⟩ =
        (.nil, some (.errorf ("unhandled status code: " ++ toString code))) ∧
      Layer.Query c vars ⟨code, body⟩ =
        (QueryResults.zero, some (.errorf ("unhandled status code: " ++ toString code))) ∧
      Layer.ApplyEdits c ⟨code, body⟩ =
        ([], some (.errorf ("unhandled status code: " ++ toString code)))) ∧
    (∀ e, c.unmarshalMap body = .error e →
      Layer.Info c ⟨200, body⟩ =
        (.nil, some (.errorf ("failed to unmarshal response body: " ++ e))) ∧
      Layer.Query c vars ⟨200, body⟩ =
        (QueryResults.zero, some (.errorf ("failed to unmarshal response body: " ++ e))) ∧
      Layer.ApplyEdits c ⟨200, body⟩ =
        ((c.unmarshalApplyEditsResults body).1,
          (c.unmarshalApplyEditsResults body).2.map fun e =>
            .errorf ("failed to decode query results: " ++ e))) := by
  have h404 : statusError 404 = some .ErrNotFound := by decide
  have h200 : statusError 200 = none := by decide
  refine ⟨⟨?_, ?_, ?_⟩, ?_, ?_⟩
  · simp [Layer.Info, h404]
  · simp [Layer.Query, h404]
  · simp [Layer.ApplyEdits, h404]
  · intro code h1 h2
    have hs : statusError code =
        some (.errorf ("unhandled status code: " ++ toString code)) := by
      simp [statusError, h1, h2]
    simp [Layer.Info, Layer.Query, Layer.ApplyEdits, hs]
  · intro e he
    refine ⟨?_, ?_, ?_⟩
    · simp [Layer.Info, h200, he]
    · simp [Layer.Query, h200, he]
    · rcases hu : c.unmarshalApplyEditsResults body with ⟨r, _ | e'⟩ <;>
        simp [Layer.ApplyEdits, h200, he, hu]

/-- C16, on a body that holds an error envelope: with status 404 and 500 the
envelope is not decoded. -/
theorem status_classification_witness :
    Layer.Info goCodec ⟨404, some notFoundBody⟩ = (.nil, some .ErrNotFound) ∧
    Layer.Info goCodec ⟨500, some notFoundBody⟩ =
      (.nil, some (.errorf "unhandled status code: 500")) ∧
    Layer.Info goCodec ⟨200, none⟩ =
      (.nil, some (.errorf
        "failed to unmarshal response body: invalid character looking for beginning of value")) :=
  have h := status_classification goCodec ⟨"1=1", true, none, 0⟩ (some notFoundBody)
  have h2 := status_classification goCodec ⟨"1=1", true, none, 0⟩ none
  ⟨h.1.1, (h.2.1 500 (by decide) (by decide)).1, (h2.2.2 _ rfl).1⟩

/-! ## Validation: the remaining claims -/

/-- The geometry check fails with an error, never with a panic. -/
theorem checkGeometry_error_is_err {expect : String} {G : GoType} {o : Outcome}
    (h : checkGeometry expect G = .error o) : ∃ msg, o = .err msg := by
  unfold checkGeometry checkGeometryType at h
  repeat' split at h
  all_goals first
    | (cases h; exact ⟨_, rfl⟩)
    | cases h

/-- C17: the errors for a geometry member that differs from the expected
variant.  When a point or no geometry is expected the message names neither
the declared type nor the expected geometry type; only the multipoint branch
names both. -/
theorem ValidateFeature_geometry_mismatch_messages :
    ValidateFeature (some MultiPointFeatureT) (.featureLayer wildfireInfo) =
      .err "geometry type is point but geometry is not" ∧
    ValidateFeature (some UpdateFeatureT) (.table wildfireTable) =
      .err "geometry type is none but geometry is not" ∧
    ValidateFeature (some UpdateFeatureT) (.featureLayer multiPointInfo) =
      .err "invalid geometry, expected 'esriGeometryMultipoint' but got 'featureserver.GeometryPoint'" :=
  ⟨by decide, by decide, by decide⟩

/-- C18: the call of `examples/query`.  The flat attributes struct has no
member keyed `attributes`, so validation fails although every member matches
its schema field (wrapped as an attributes container it passes). -/
theorem ValidateFeature_flat_attributes :
    ValidateFeature (some FeatureAttributesT) (.featureLayer queryExampleInfo) =
      .err "missing attributes field" ∧
    (∀ f ∈ queryExampleInfo.Fields, ∃ m ∈ FeatureAttributesT.fields,
      m.wireKey = f.Name ∧ expectedRepresentation f.Typ f.Nullable = some m.Typ) ∧
    ValidateFeature (some WrappedFeatureAttributesT) (.featureLayer queryExampleInfo) = .ok :=
  ⟨by decide, by decide, by decide⟩

/-- C19: the calls on which `ValidateFeature` panics: a nil feature (`Kind` on
a nil type) and a record shape whose attributes member is not of kind struct
(`NumField`), here raw JSON bytes and a map. -/
theorem ValidateFeature_panics :
    ValidateFeature none (.featureLayer wildfireInfo) =
      .panic "invalid memory address or nil pointer dereference" ∧
    ValidateFeature (some RawAttributesFeatureT) (.featureLayer wildfireInfo) =
      .panic "reflect: NumField of non-struct type json.RawMessage" ∧
    ValidateFeature (some MapAttributesFeatureT) (.featureLayer wildfireInfo) =
      .panic "reflect: NumField of non-struct type map[string]interface {}" ∧
    ValidateFeature (some (.basic .int)) (.featureLayer wildfireInfo) =
      .err "feature must be a struct" :=
  ⟨by decide, by decide, by decide, by decide⟩

/-- The tag-collecting loop in closed form: it fails at the first member
without wire key and otherwise yields the map of wire keys to Go names. -/
theorem collectJsonTags_eq (l : List StructField) (acc : GoMap) :
    collectJsonTags l acc =
      match l.find? (fun m => m.wireKey == "") with
      | some m => .error (.err ("missing json tag for '" ++ m.Name ++ "'"))
      | none => .ok (tagNames l ++ acc) := by
  induction l generalizing acc with
  | nil => simp [collectJsonTags, tagNames]
  | cons f rest ih =>
    by_cases hf : splitFirst f.jsonTag = ""
    · simp [collectJsonTags, hf, StructField.wireKey]
    · have hb : (f.wireKey == "") = false := by simpa [StructField.wireKey] using hf
      simp only [collectJsonTags, hf, if_false, List.find?_cons, hb, ih]
      cases rest.find? (fun m => m.wireKey == "") <;>
        simp [tagNames, GoMap.set, StructField.wireKey]

theorem exists_first_untagged {l : List StructField} (h : ¬ HasWireKeys l) :
    ∃ pre m post, l = pre ++ m :: post ∧ HasWireKeys pre ∧ m.wireKey = "" := by
  induction l with
  | nil => exact absurd (fun m hm => by simp at hm) h
  | cons f rest ih =>
    by_cases hf : f.wireKey = ""
    · exact ⟨[], f, rest, rfl, fun m hm => by simp at hm, hf⟩
    · have hr : ¬ HasWireKeys rest := by
        intro hr
        apply h
        intro m hm
        rcases List.mem_cons.mp hm with e | e
        · subst e; exact hf
        · exact hr m e
      obtain ⟨pre, m, post, h1, h2, h3⟩ := ih hr
      refine ⟨f :: pre, m, post, by simp [h1], ?_, h3⟩
      intro x hx
      rcases List.mem_cons.mp hx with e | e
      · subst e; exact hf
      · exact h2 x e

theorem find?_first_untagged {pre post : List StructField} {m : StructField}
    (hpre : HasWireKeys pre) (hm : m.wireKey = "") :
    (pre ++ m :: post).find? (fun m => m.wireKey == "") = some m := by
  induction pre with
  | nil => simp [hm]
  | cons f rest ih =>
    have hf : (f.wireKey == "") = false := by
      simpa using hpre f (List.mem_cons_self _ _)
    simp only [List.cons_append, List.find?_cons, hf]
    exact ih (fun x hx => hpre x (List.mem_cons_of_mem _ hx))

theorem fields_of_not_struct {t : GoType} (h : t.kind ≠ Kind.struct) : t.fields = [] := by
  cases t <;> simp_all [GoType.kind, GoType.fields]

theorem schemaOf_error_is_err {info : Info} {o : Outcome} (h : schemaOf info = .error o) :
    ∃ msg, o = .err msg := by
  cases info <;> simp [schemaOf] at h <;> exact ⟨_, h.symm⟩

/-- A struct-typed feature with a top-level member without wire key fails at
the first such member. -/
theorem ValidateFeature_untagged_top {feature : GoType} (info : Info)
    (hk : feature.kind = Kind.struct) {pre post : List StructField} {m : StructField}
    (hf : feature.fields = pre ++ m :: post) (hpre : HasWireKeys pre)
    (hm : m.wireKey = "") :
    ValidateFeature (some feature) info =
      .err ("missing json tag for '" ++ m.Name ++ "'") := by
  simp [ValidateFeature, containerChecks, resolveContainers, hk, collectJsonTags_eq, hf,
    find?_first_untagged hpre hm, bind, Except.bind]

/-- A struct-typed feature without a member keyed `attributes` is reported as
missing the attributes field. -/
theorem ValidateFeature_no_attributes {feature : GoType} (info : Info)
    (hk : feature.kind = Kind.struct) (hkeys : HasWireKeys feature.fields)
    (hno : ∀ m ∈ feature.fields, m.wireKey ≠ "attributes") :
    ValidateFeature (some feature) info = .err "missing attributes field" := by
  have hget := tagNames_get?_eq_none.mpr hno
  simp [ValidateFeature, containerChecks, resolveContainers, hk, collectJsonTags_ok hkeys,
    GoMap.index, hget, bind, Except.bind]

/-- A struct-typed feature with a member keyed `attributes` and none keyed
`geometry` is reported as missing the geometry field. -/
theorem ValidateFeature_no_geometry {feature : GoType} (info : Info)
    (hk : feature.kind = Kind.struct) (hn : ∀ m ∈ feature.fields, m.Name ≠ "")
    (hkeys : HasWireKeys feature.fields)
    (hattr : ∃ m ∈ feature.fields, m.wireKey = "attributes")
    (hno : ∀ m ∈ feature.fields, m.wireKey ≠ "geometry") :
    ValidateFeature (some feature) info = .err "missing geometry field" := by
  have hget := tagNames_get?_eq_none.mpr hno
  cases ha : GoMap.get? (tagNames feature.fields) "attributes" with
  | none =>
    obtain ⟨m, hm, hkm⟩ := hattr
    exact absurd hkm (tagNames_get?_eq_none.mp ha m hm)
  | some na =>
    obtain ⟨m0, hm0, _, hname⟩ := tagNames_get?_some ha
    have hne : na ≠ "" := hname ▸ hn m0 hm0
    cases hfind : feature.fields.find? (fun f => f.Name == na) with
    | none =>
      have := List.find?_eq_none.mp hfind m0 hm0
      simp [hname] at this
    | some a =>
      simp [ValidateFeature, containerChecks, resolveContainers, hk,
        collectJsonTags_ok hkeys, GoMap.index, ha, hget, hne, GoType.FieldByName, hfind,
        bind, Except.bind]

/-- Once the containers are resolved, the info is a layer info and the geometry
check passes, an attributes member without wire key is reported by name. -/
theorem ValidateFeature_untagged_attribute {feature : Option GoType} {info : Info}
    {a g : StructField} {fields : List FieldInfo} {expect : String}
    {pre post : List StructField} {m : StructField}
    (hr : resolveContainers feature = .ok (a, g))
    (hs : schemaOf info = .ok (fields, expect))
    (hg : checkGeometry expect g.Typ = .ok ())
    (hf : a.Typ.fields = pre ++ m :: post) (hpre : HasWireKeys pre)
    (hm : m.wireKey = "") :
    ValidateFeature feature info = .err ("missing json tag for '" ++ m.Name ++ "'") := by
  have hk : a.Typ.kind = Kind.struct := by
    by_contra hk
    rw [fields_of_not_struct hk] at hf
    simp at hf
  simp [ValidateFeature, containerChecks, hr, hs, hg, attributeNames, hk, collectJsonTags_eq,
    hf, find?_first_untagged hpre hm, bind, Except.bind]

/-- C13, as stated, fails: the geometry check comes before the attributes
members are read, so for a record shape whose geometry member does not match
the error is the geometry error and does not name the attributes member
without wire key. -/
theorem ValidateFeature_untagged_attribute_unnamed :
    (∃ a g, resolveContainers (some UntaggedMultiPointT) = .ok (a, g) ∧
      ∃ m ∈ a.Typ.fields, m.wireKey = "" ∧ m.Name = "Rotation") ∧
    ValidateFeature (some UntaggedMultiPointT) (.featureLayer wildfireInfo) =
      .err "geometry type is point but geometry is not" :=
  ⟨⟨_, _, rfl, by decide⟩, by decide⟩

/-- C13, amended: a struct-typed record shape that lacks a member keyed
`attributes` or `geometry`, or has a member without wire key at top level or
inside the attributes container, fails validation with an error.  The error
names the offending member when the defect is at top level (the first member
without wire key, else the missing attributes container, else the missing
geometry container); a member without wire key inside the attributes container
is named when the info is a layer info and the geometry check passes. -/
theorem ValidateFeature_missing_member (feature : GoType) (info : Info)
    (hk : feature.kind = Kind.struct) (hn : ∀ m ∈ feature.fields, m.Name ≠ "") :
    (∀ pre m post, feature.fields = pre ++ m :: post → HasWireKeys pre → m.wireKey = "" →
      ValidateFeature (some feature) info =
        .err ("missing json tag for '" ++ m.Name ++ "'")) ∧
    (HasWireKeys feature.fields → (∀ m ∈ feature.fields, m.wireKey ≠ "attributes") →
      ValidateFeature (some feature) info = .err "missing attributes field") ∧
    (HasWireKeys feature.fields → (∃ m ∈ feature.fields, m.wireKey = "attributes") →
      (∀ m ∈ feature.fields, m.wireKey ≠ "geometry") →
      ValidateFeature (some feature) info = .err "missing geometry field") ∧
    (∀ a g fields expect pre m post, resolveContainers (some feature) = .ok (a, g) →
      schemaOf info = .ok (fields, expect) → checkGeometry expect g.Typ = .ok () →
      a.Typ.fields = pre ++ m :: post → HasWireKeys pre → m.wireKey = "" →
      ValidateFeature (some feature) info =
        .err ("missing json tag for '" ++ m.Name ++ "'")) ∧
    ((¬ HasWireKeys feature.fields ∨ (∀ m ∈ feature.fields, m.wireKey ≠ "attributes") ∨
        (∀ m ∈ feature.fields, m.wireKey ≠ "geometry") ∨
        (∃ a g, resolveContainers (some feature) = .ok (a, g) ∧
          ¬ HasWireKeys a.Typ.fields)) →
      ∃ msg, ValidateFeature (some feature) info = .err msg) := by
  have h1 : ∀ pre m post, feature.fields = pre ++ m :: post → HasWireKeys pre →
      m.wireKey = "" → ValidateFeature (some feature) info =
        .err ("missing json tag for '" ++ m.Name ++ "'") :=
    fun pre m post hf hpre hm => ValidateFeature_untagged_top info hk hf hpre hm
  have h4 : ∀ a g fields expect pre m post, resolveContainers (some feature) = .ok (a, g) →
      schemaOf info = .ok (fields, expect) → checkGeometry expect g.Typ = .ok () →
      a.Typ.fields = pre ++ m :: post → HasWireKeys pre → m.wireKey = "" →
      ValidateFeature (some feature) info =
        .err ("missing json tag for '" ++ m.Name ++ "'") :=
    fun a g fields expect pre m post hr hs hg hf hpre hm =>
      ValidateFeature_untagged_attribute hr hs hg hf hpre hm
  have top : ¬ HasWireKeys feature.fields →
      ∃ msg, ValidateFeature (some feature) info = .err msg := by
    intro h
    obtain ⟨pre, m, post, hf, hpre, hm⟩ := exists_first_untagged h
    exact ⟨_, h1 pre m post hf hpre hm⟩
  have noattr : (∀ m ∈ feature.fields, m.wireKey ≠ "attributes") →
      ∃ msg, ValidateFeature (some feature) info = .err msg := by
    intro h
    by_cases hkeys : HasWireKeys feature.fields
    · exact ⟨_, ValidateFeature_no_attributes info hk hkeys h⟩
    · exact top hkeys
  refine ⟨h1, ValidateFeature_no_attributes info hk,
    ValidateFeature_no_geometry info hk hn, h4, ?_⟩
  rintro (h | h | h | ⟨a, g, hr, h⟩)
  · exact top h
  · exact noattr h
  · by_cases hkeys : HasWireKeys feature.fields
    · by_cases hattr : ∃ m ∈ feature.fields, m.wireKey = "attributes"
      · exact ⟨_, ValidateFeature_no_geometry info hk hn hkeys hattr h⟩
      · exact noattr (fun m hm hkm => hattr ⟨m, hm, hkm⟩)
    · exact top hkeys
  · obtain ⟨pre, m, post, hf, hpre, hm⟩ := exists_first_untagged h
    cases hs : schemaOf info with
    | error o =>
      obtain ⟨msg, rfl⟩ := schemaOf_error_is_err hs
      exact ⟨msg, by simp [ValidateFeature, containerChecks, hr, hs, bind, Except.bind]⟩
    | ok fe =>
      obtain ⟨fields, expect⟩ := fe
      cases hg : checkGeometry expect g.Typ with
      | error o =>
        obtain ⟨msg, rfl⟩ := checkGeometry_error_is_err hg
        exact ⟨msg, by simp [ValidateFeature, containerChecks, hr, hs, hg, bind, Except.bind]⟩
      | ok u => exact ⟨_, h4 a g fields expect pre m post hr hs hg hf hpre hm⟩

/-- C13, amended, on a record shape with matching point geometry whose
attributes member `Rotation` has no `json` tag. -/
theorem ValidateFeature_missing_member_witness :
    ValidateFeature (some UntaggedPointT) (.featureLayer wildfireInfo) =
      .err "missing json tag for 'Rotation'" :=
  (ValidateFeature_missing_member UntaggedPointT (.featureLayer wildfireInfo)
    (by decide) (by decide)).2.2.2.1
    ⟨"Attributes", "attributes",
      .mkStruct "main.UntaggedAttributes"
        [⟨"ObjectID", "objectid", .basic .int32⟩, ⟨"Rotation", "", .pointer (.basic .int16)⟩]⟩
    ⟨"Geometry", "geometry", GeometryPointT⟩ wildfireInfo.Fields GeometryTypePoint
    [⟨"ObjectID", "objectid", .basic .int32⟩] ⟨"Rotation", "", .pointer (.basic .int16)⟩ []
    rfl rfl rfl rfl (by decide) rfl

/-! ### Extra members of the attributes container -/

end Arcgis
